import Mathlib

/-!
Verification development for the CSV question-answering engine of
IntelligentCsvAnalyzer (src/server/services/csvService.ts).

The TypeScript source is shallowly embedded below.  JavaScript strings are
modelled as Lean String / List Char (ASCII-faithful: toLowerCase and the
regex whitespace class are modelled on the ASCII range, which covers every
keyword, pattern and message of the source).  JavaScript numbers are
modelled as exact rationals: all claims proved here depend only on
ordering, addition of exactly representable values and decimal rendering,
never on binary floating-point rounding.  Number("Infinity") is modelled as
unparseable (the rational model has no infinities).  JavaScript objects
used as string-keyed records are modelled as insertion-ordered association
lists with in-place update, exactly mirroring property-assignment
semantics.  Regular expressions of the source are modelled pattern by
pattern; each modelling is noted next to its definition.
-/

/-! ### Character and string basics -/

/-- JavaScript whitespace class (ASCII part): space, tab, newline, carriage
return, vertical tab, form feed. -/
def isSpaceJS (c : Char) : Bool :=
  c = ' ' || c = '\t' || c = '\n' || c = '\r' || c = '\x0b' || c = '\x0c'

/-- String.prototype.trim / Number's internal trimming, on char lists. -/
def trimJS (l : List Char) : List Char :=
  (l.dropWhile isSpaceJS).reverse.dropWhile isSpaceJS |>.reverse

/-- toLowerCase, ASCII range (Char.toLower lowers exactly A-Z). -/
def jsToLower (s : String) : String :=
  String.mk (s.data.map Char.toLower)

/-- JS \w word-character class: [A-Za-z0-9_]. -/
def isWordChar (c : Char) : Bool :=
  (('a' ≤ c && c ≤ 'z') || ('A' ≤ c && c ≤ 'Z') || c.isDigit || c = '_')

/-- Substring test on char lists: does needle occur inside hay?
Models String.prototype.includes and /literal/ regex tests (a literal
pattern containing no newline matches a string iff it is a substring). -/
def subList (n : List Char) : List Char → Bool
  | [] => n.isEmpty
  | c :: t => n.isPrefixOf (c :: t) || subList n t

/-- Substring test on Strings. -/
def substrB (n h : String) : Bool :=
  subList n.data h.data

/-- One occurrence of a followed (possibly later, same line) by one of b:
models the regex fragment a.*b inside one newline-free line (JS "." does
not match a newline). -/
def seqSub (a b : List Char) : List Char → Bool
  | [] => a.isEmpty && b.isEmpty
  | c :: t => (a.isPrefixOf (c :: t) && subList b ((c :: t).drop a.length)) || seqSub a b t

/-- Split a char list at every separator character (single-character
separators, not runs): models String.prototype.split with a one-character
class regex (dash-or-slash) or a literal split character. -/
def splitSepAux (isSep : Char → Bool) (cur : List Char) : List Char → List (List Char)
  | [] => [cur.reverse]
  | c :: t =>
    if isSep c then cur.reverse :: splitSepAux isSep [] t
    else splitSepAux isSep (c :: cur) t

def splitSep (isSep : Char → Bool) (l : List Char) : List (List Char) :=
  splitSepAux isSep [] l

/-- Models /a.*b/ tested against a whole string: the match must sit inside
a single newline-free line. -/
def seqMatch (a b : String) (s : String) : Bool :=
  (splitSep (fun c => c = '\n') s.data).any (seqSub a.data b.data)

/-- Models String.prototype.split(/\s+/): maximal whitespace runs are
separators; a leading or trailing run produces an empty piece.  The
first argument is true while a separator run is being consumed. -/
def splitWsAux : Bool → List Char → List Char → List (List Char)
  | true, _, [] => [[]]
  | true, _, c :: t =>
    if isSpaceJS c then splitWsAux true [] t else splitWsAux false [c] t
  | false, cur, [] => [cur.reverse]
  | false, cur, c :: t =>
    if isSpaceJS c then cur.reverse :: splitWsAux true [] t
    else splitWsAux false (c :: cur) t

def splitWsJS (l : List Char) : List (List Char) :=
  splitWsAux false [] l

/-- Remove every occurrence of one character: models replace(/c/g, ''). -/
def removeAllChar (c : Char) (l : List Char) : List Char :=
  l.filter (fun x => x ≠ c)

/-- Remove the first occurrence of "rs." case-insensitively:
models replace(/Rs\./i, '') (no g flag, so only the first occurrence). -/
def removeRsDot : List Char → List Char
  | [] => []
  | a :: rest =>
    match rest with
    | b :: '.' :: t =>
      if a.toLower = 'r' && b.toLower = 's' then t
      else a :: removeRsDot rest
    | _ => a :: removeRsDot rest

/-- Digit run to Nat. -/
def digitsToNat (l : List Char) : Nat :=
  l.foldl (fun n c => 10 * n + (c.toNat - 48)) 0

def isHexDigitJS (c : Char) : Bool :=
  c.isDigit || ('a' ≤ c && c ≤ 'f') || ('A' ≤ c && c ≤ 'F')

def hexVal (c : Char) : Nat :=
  if c.isDigit then c.toNat - 48
  else if 'a' ≤ c && c ≤ 'f' then c.toNat - 87
  else c.toNat - 55

def hexToNat (l : List Char) : Nat :=
  l.foldl (fun n c => 16 * n + hexVal c) 0

def binToNat (l : List Char) : Nat :=
  l.foldl (fun n c => 2 * n + (c.toNat - 48)) 0

def octToNat (l : List Char) : Nat :=
  l.foldl (fun n c => 8 * n + (c.toNat - 48)) 0

/-! ### JavaScript numeric conversions as exact rationals -/

/-- Decimal literal with optional fraction and exponent, full-string match:
the decimal core of Number(). -/
def parseDecFull (l : List Char) : Option ℚ :=
  let ip := l.takeWhile Char.isDigit
  let r1 := l.dropWhile Char.isDigit
  let fp := match r1 with
    | '.' :: t => t.takeWhile Char.isDigit
    | _ => []
  let r2 := match r1 with
    | '.' :: t => t.dropWhile Char.isDigit
    | _ => r1
  if ip = [] && fp = [] then none
  else
    let base : ℚ := (digitsToNat ip : ℚ) + (digitsToNat fp : ℚ) / ((10 : ℚ) ^ fp.length)
    match r2 with
    | [] => some base
    | c :: t =>
      if c = 'e' || c = 'E' then
        let esgn : Int := match t with
          | '-' :: _ => -1
          | _ => 1
        let d := match t with
          | '+' :: d => d
          | '-' :: d => d
          | d => d
        let ds := d.takeWhile Char.isDigit
        let rest := d.dropWhile Char.isDigit
        if ds = [] || rest ≠ [] then none
        else some (base * (10 : ℚ) ^ (esgn * (digitsToNat ds : Int)))
      else none

/-- Number(s) as Option ℚ: none models NaN (and, in this finite model, the
infinities).  Whitespace-only is 0; hex / binary / octal integer literals
are accepted unsigned, decimal literals signed. -/
def jsNumber (s : String) : Option ℚ :=
  let t := trimJS s.data
  if t = [] then some 0
  else
    match t with
    | '0' :: 'x' :: r => if r ≠ [] && r.all isHexDigitJS then some (hexToNat r : ℚ) else none
    | '0' :: 'X' :: r => if r ≠ [] && r.all isHexDigitJS then some (hexToNat r : ℚ) else none
    | '0' :: 'b' :: r => if r ≠ [] && r.all (fun c => c = '0' || c = '1') then some (binToNat r : ℚ) else none
    | '0' :: 'B' :: r => if r ≠ [] && r.all (fun c => c = '0' || c = '1') then some (binToNat r : ℚ) else none
    | '0' :: 'o' :: r => if r ≠ [] && r.all (fun c => '0' ≤ c && c ≤ '7') then some (octToNat r : ℚ) else none
    | '0' :: 'O' :: r => if r ≠ [] && r.all (fun c => '0' ≤ c && c ≤ '7') then some (octToNat r : ℚ) else none
    | _ =>
      let sgn : ℚ := match t with
        | '-' :: _ => -1
        | _ => 1
      let r := match t with
        | '+' :: r => r
        | '-' :: r => r
        | r => r
      if r = "Infinity".data then none
      else (parseDecFull r).map (fun q => sgn * q)

/-- Longest numeric prefix after the optional sign, as in parseFloat:
accepts digits around an optional point and an optional well-formed
exponent, ignores any trailing garbage, none models NaN ("Infinity" is
unrepresentable here and also maps to none). -/
def parseFloatBody (l : List Char) : Option ℚ :=
  if ("Infinity".data).isPrefixOf l then none
  else
    let ip := l.takeWhile Char.isDigit
    let r1 := l.dropWhile Char.isDigit
    let fp := match r1 with
      | '.' :: t => t.takeWhile Char.isDigit
      | _ => []
    let r2 := match r1 with
      | '.' :: t => t.dropWhile Char.isDigit
      | _ => r1
    if ip = [] && fp = [] then none
    else
      let base : ℚ := (digitsToNat ip : ℚ) + (digitsToNat fp : ℚ) / ((10 : ℚ) ^ fp.length)
      let exp : Int := match r2 with
        | c :: t =>
          if c = 'e' || c = 'E' then
            let esgn : Int := match t with
              | '-' :: _ => -1
              | _ => 1
            let d := match t with
              | '+' :: d => d
              | '-' :: d => d
              | d => d
            let ds := d.takeWhile Char.isDigit
            if ds = [] then 0 else esgn * (digitsToNat ds : Int)
          else 0
        | [] => 0
      some (base * (10 : ℚ) ^ exp)

def jsParseFloat (s : String) : Option ℚ :=
  let l := s.data.dropWhile isSpaceJS
  match l with
  | '+' :: r => parseFloatBody r
  | '-' :: r => (parseFloatBody r).map (fun q => -q)
  | r => parseFloatBody r

/-- parseInt(s) (radix 10, with the automatic 0x hex prefix). -/
def parseIntJS (s : String) : Option Int :=
  let l := s.data.dropWhile isSpaceJS
  let sgn : Int := match l with
    | '-' :: _ => -1
    | _ => 1
  let r := match l with
    | '+' :: r => r
    | '-' :: r => r
    | r => r
  match r with
  | '0' :: 'x' :: h =>
    let ds := h.takeWhile isHexDigitJS
    if ds = [] then none else some (sgn * (hexToNat ds : Int))
  | '0' :: 'X' :: h =>
    let ds := h.takeWhile isHexDigitJS
    if ds = [] then none else some (sgn * (hexToNat ds : Int))
  | _ =>
    let ds := r.takeWhile Char.isDigit
    if ds = [] then none else some (sgn * (digitsToNat ds : Int))

/-- Floor of a rational, through the reduced numerator and denominator
(Int.fdiv is flooring division). -/
def ratFloor (q : ℚ) : Int :=
  Int.fdiv q.num (q.den : Int)

/-- Number.prototype.toFixed(f) rounds to the integer n with n / 10^f
closest to the value, ties to the larger n; for f = 2 that is
n = floor(100 q + 1/2). -/
def toFixed2 (q : ℚ) : String :=
  let n : Int := ratFloor (q * 100 + 1 / 2)
  let sign := if n < 0 then "-" else ""
  let m := n.natAbs
  let frac := m % 100
  sign ++ toString (m / 100) ++ "." ++ (if frac < 10 then "0" else "") ++ toString frac

/-- toFixed(0). -/
def toFixed0 (q : ℚ) : String :=
  let n : Int := ratFloor (q + 1 / 2)
  toString n

/-! ### Data model (csvService.ts lines 10-38) -/

/-- enum ColumnSemanticType. -/
inductive ColumnSemanticType where
  | INVOICE_NUMBER | CUSTOMER_NAME | DATE | AMOUNT | TAX | TAX_RATE
  | QUANTITY | PRODUCT | CITY | STATE | GSTIN | PAN | UNKNOWN
deriving DecidableEq, Repr

/-- enum QueryType. -/
inductive QueryType where
  | HIGHEST_SALES | TOP_PRODUCTS | CITY_ANALYSIS | TIME_COMPARISON
  | TAX_CALCULATION | TREND_ANALYSIS | PRODUCT_INSIGHTS | SUMMARY_STATISTICS
  | UNKNOWN
deriving DecidableEq, Repr

/-- A parsed row: a JS object keyed by header names, modelled as an
insertion-ordered association list. -/
def Row : Type := List (String × String)

instance : DecidableEq Row := by
  unfold Row
  infer_instance

/-- JS property read row[k], first binding wins (keys are kept unique by
rowSet, mirroring object slots). -/
def rlookup {β : Type} (k : String) : List (String × β) → Option β
  | [] => none
  | (k2, v) :: t => if k2 = k then some v else rlookup k t

/-- JS property write row[k] = v: update in place when the key exists,
append otherwise. -/
def rowSet {β : Type} (r : List (String × β)) (k : String) (v : β) : List (String × β) :=
  if (rlookup k r).isSome then
    r.map (fun p => if p.1 = k then (k, v) else p)
  else r ++ [(k, v)]

/-- row[column] for a column known to the row; missing keys read as ""
(the handlers only read header keys, which are always present). -/
def rowGet (r : Row) (k : String) : String :=
  (rlookup k r).getD ""

/-! ### Tabular parser (csvService.ts lines 344-474) -/

/-- Count of occurrences of a delimiter character that are neither
directly preceded nor directly followed by a double quote: the match
count of the regex (?<!")d(?!")/g for d one of comma, semicolon, tab. -/
def countAdjAux (d : Char) (prev : Option Char) : List Char → Nat
  | [] => 0
  | c :: t =>
    let prevOk := match prev with
      | some p => p ≠ '"'
      | none => true
    let nextOk := match t with
      | n :: _ => n ≠ '"'
      | [] => true
    (if c = d && prevOk && nextOk then 1 else 0) + countAdjAux d (some c) t

def countAdj (d : Char) (l : List Char) : Nat :=
  countAdjAux d none l

/-- Number of adjacent double-quote pairs in a char list. -/
def quotePairs : List Char → Nat
  | '"' :: '"' :: t => 1 + quotePairs ('"' :: t)
  | _ :: t => quotePairs t
  | [] => 0

/-- The '|' candidate is interpolated unescaped into the RegExp, so the
pattern degenerates to an alternation of two zero-width assertions,
(?<!") | (?!"), which matches the empty string at every position of the
line except between two adjacent double quotes: length + 1 minus the
number of adjacent quote pairs. -/
def pipeCount (l : List Char) : Nat :=
  l.length + 1 - quotePairs l

/-- Delimiter detection, lines 348-360: first line of the content (before
the first newline, even if blank), candidate counts for comma, semicolon,
tab, pipe, first index of the maximal count, comma when that count is 0. -/
def detectDelimiter (content : String) : Char :=
  let firstLine := (splitSep (fun c => c = '\n') content.data).headD []
  let counts := [countAdj ',' firstLine, countAdj ';' firstLine,
                 countAdj '\t' firstLine, pipeCount firstLine]
  let mx := counts.foldl max 0
  let maxIndex := counts.findIdx (fun c => c = mx)
  if counts.getD maxIndex 0 > 0 then [',', ';', '\t', '|'].getD maxIndex ',' else ','

/-- Quote-aware split of one line, lines 416-432 (also 374-388): a double
quote not preceded by a backslash toggles the in-quotes state and is not
emitted; the delimiter outside quotes closes the current value; every
other character is emitted.  Returns the raw parts, last part included. -/
def splitQAAux (delim : Char) (prev : Option Char) (inQ : Bool) (cur : List Char) :
    List Char → List (List Char)
  | [] => [cur.reverse]
  | c :: t =>
    if c = '"' && prev ≠ some '\\' then
      splitQAAux delim (some c) (!inQ) cur t
    else if c = delim && !inQ then
      cur.reverse :: splitQAAux delim (some c) inQ [] t
    else
      splitQAAux delim (some c) inQ (c :: cur) t

def splitQA (delim : Char) (l : List Char) : List (List Char) :=
  splitQAAux delim none false [] l

/-- trim then strip one surrounding quote on each side:
.trim().replace(surrounding-quote-regex, '') applied to headers/values. -/
def cleanHV (l : List Char) : String :=
  let t := trimJS l
  let l1 := match t with
    | c :: r => if c = '"' || c = '\'' then r else t
    | [] => []
  let l2 := match l1.getLast? with
    | some c => if c = '"' || c = '\'' then l1.dropLast else l1
    | none => l1
  String.mk l2

/-- Header-line parsing, lines 366-406.  With a quote present: quote-aware
split, every part cleaned, the last part kept only when nonblank.  Without
a quote: plain split on the delimiter.  Then the composite-header
recovery: a single resulting header containing a comma is re-split on
commas with trim only. -/
def parseHeaders (delim : Char) (headerLine : List Char) : List String :=
  let headers :=
    if headerLine.contains '"' then
      let parts := splitQA delim headerLine
      (parts.dropLast.map cleanHV) ++
        (match parts.getLast? with
         | some last => if trimJS last ≠ [] then [cleanHV last] else []
         | none => [])
    else
      (splitSep (fun c => c = delim) headerLine).map cleanHV
  match headers with
  | [h] =>
    if h.data.contains ',' then
      (splitSep (fun c => c = ',') h.data).map (fun p => String.mk (trimJS p))
    else [h]
  | hs => hs

/-- Row construction, lines 437-441: the Nth header is bound to the Nth
value, missing trailing values read as the empty string, extra values are
dropped (never read). -/
def mkRow (headers : List String) (values : List String) : Row :=
  headers.enum.foldl (fun r p => rowSet r p.2 (values.getD p.1 "")) []

/-- Date-string shapes of isDateString, lines 477-487 (patterns are
anchored at both ends; the pieces are digit runs, single separators and
letter runs, so greedy matching is exact). -/
def matchDigitsRun (lo hi : Nat) (l : List Char) : Option (List Char) :=
  let ds := l.takeWhile Char.isDigit
  if lo ≤ ds.length && ds.length ≤ hi then some (l.dropWhile Char.isDigit) else none

def matchAlphaRun (lo hi : Nat) (l : List Char) : Option (List Char) :=
  let ds := l.takeWhile Char.isAlpha
  if lo ≤ ds.length && ds.length ≤ hi then some (l.dropWhile Char.isAlpha) else none

def matchSep (ok : Char → Bool) : List Char → Option (List Char)
  | c :: t => if ok c then some t else none
  | [] => none

def isDashSlash (c : Char) : Bool := c = '-' || c = '/'

def isDashSpace (c : Char) : Bool := c = '-' || isSpaceJS c

/-- isDateString, lines 477-487: DD/MM/YYYY-style, YYYY/MM/DD-style,
"DD Mon YYYY" and "Mon DD YYYY" shapes, tested after trimming. -/
def isDateString (s : String) : Bool :=
  let t := trimJS s.data
  let p1 := (matchDigitsRun 1 2 t).bind (matchSep isDashSlash) |>.bind (matchDigitsRun 1 2)
              |>.bind (matchSep isDashSlash) |>.bind (matchDigitsRun 2 4)
  let p2 := (matchDigitsRun 2 4 t).bind (matchSep isDashSlash) |>.bind (matchDigitsRun 1 2)
              |>.bind (matchSep isDashSlash) |>.bind (matchDigitsRun 1 2)
  let p3 := (matchDigitsRun 1 2 t).bind (matchSep isDashSpace) |>.bind (matchAlphaRun 3 9)
              |>.bind (matchSep isDashSpace) |>.bind (matchDigitsRun 2 4)
  let p4 := (matchAlphaRun 3 9 t).bind (matchSep isDashSpace) |>.bind (matchDigitsRun 1 2)
              |>.bind (matchSep isDashSpace) |>.bind (matchDigitsRun 2 4)
  (p1 = some []) || (p2 = some []) || (p3 = some []) || (p4 = some [])

/-! ### Column classifier (csvService.ts lines 446-471 and 489-584) -/

def anySubstr (needles : List String) (hay : String) : Bool :=
  needles.any (fun n => substrB n hay)

/-- Invoice/voucher-number header condition, lines 494-506 (on the
lowercased header). -/
def invoiceHeaderMatch (hl : String) : Bool :=
  substrB "invoice" hl || substrB "bill" hl ||
  substrB "receipt" hl || hl = "no." ||
  hl = "no" || substrB "number" hl ||
  substrB "vou no" hl || substrB "voucher no" hl ||
  hl = "vou" || substrB "transaction id" hl ||
  hl = "vou no." || hl = "voucher no." ||
  hl = "vou. no." || hl = "vou.no." ||
  hl = "vch no" || hl = "vch no." ||
  hl = "vou" || hl = "vch" ||
  hl = "v.no" || hl = "v no" ||
  (substrB "no" hl && (substrB "vou" hl || substrB "voucher" hl))

def customerHeaderMatch (hl : String) : Bool :=
  anySubstr ["customer", "client", "buyer", "party", "name", "account"] hl

def dateHeaderMatch (hl : String) : Bool :=
  anySubstr ["date", "time", "day", "month", "year"] hl

def amountHeaderMatch (hl : String) : Bool :=
  anySubstr ["amount", "value", "total", "price", "cost", "fee", "charge", "sum",
             "rs.", "inr", "₹"] hl

def taxHeaderMatch (hl : String) : Bool :=
  anySubstr ["tax", "gst", "cgst", "sgst", "igst", "vat", "cess"] hl

def quantityHeaderMatch (hl : String) : Bool :=
  anySubstr ["qty", "quantity", "count", "units", "pieces", "nos"] hl

def productHeaderMatch (hl : String) : Bool :=
  anySubstr ["product", "item", "good", "commodity", "service", "description"] hl

def cityHeaderMatch (hl : String) : Bool :=
  anySubstr ["city", "town", "place"] hl || hl = "loc" || hl = "location"

def stateHeaderMatch (hl : String) : Bool :=
  anySubstr ["state", "province", "region"] hl

def gstinHeaderMatch (hl : String) : Bool :=
  anySubstr ["gstin", "gst no", "tax id", "tax identification"] hl

def panHeaderMatch (hl : String) : Bool :=
  substrB "pan" hl || hl = "permanent account number"

/-- inferSemanticType, lines 490-584: keyword tests on the lowercased
header, in source order; the date branch additionally accepts a
date-looking sample value. -/
def inferSemanticType (header : String) (sampleValues : List String) : ColumnSemanticType :=
  let hl := jsToLower header
  if invoiceHeaderMatch hl then .INVOICE_NUMBER
  else if customerHeaderMatch hl then .CUSTOMER_NAME
  else if dateHeaderMatch hl || sampleValues.any isDateString then .DATE
  else if amountHeaderMatch hl then .AMOUNT
  else if taxHeaderMatch hl then
    (if substrB "rate" hl || substrB "%" hl then .TAX_RATE else .TAX)
  else if quantityHeaderMatch hl then .QUANTITY
  else if productHeaderMatch hl then .PRODUCT
  else if cityHeaderMatch hl then .CITY
  else if stateHeaderMatch hl then .STATE
  else if gstinHeaderMatch hl then .GSTIN
  else if panHeaderMatch hl then .PAN
  else .UNKNOWN

/-- Sampled values for a header: the first min(10, rowCount) rows. -/
def sampleValues (data : List Row) (header : String) : List String :=
  (data.take 10).map (fun r => rowGet r header)

/-- Column coarse type, lines 450-467: numeric when at least half of the
samples are numeric after comma stripping, else date by header keyword or
date-looking sample, else text. -/
def columnTypeOf (header : String) (data : List Row) : String :=
  let sv := sampleValues data header
  let numericCount := sv.countP
    (fun v => (jsNumber (String.mk (removeAllChar ',' v.data))).isSome && trimJS v.data ≠ [])
  if 2 * numericCount ≥ sv.length then "numeric"
  else if substrB "date" (jsToLower header) || sv.any isDateString then "date"
  else "text"

/-! ### parseCSV and the orchestrator (lines 53-342, 344-474) -/

structure ParsedCSV where
  data : List Row
  headers : List String
  columnTypes : List (String × String)
  columnSemanticTypes : List (String × ColumnSemanticType)
deriving DecidableEq

/-- parseCSV, lines 345-474, as an Except: the error value marks the one
fault point of the source, reading headerLine = lines[0] when every line
is blank (a TypeError on undefined in JS, caught by the orchestrator). -/
def parseCSVE (content : String) : Except Unit ParsedCSV :=
  let delim := detectDelimiter content
  let lines := (splitSep (fun c => c = '\n') content.data).filter (fun l => trimJS l ≠ [])
  match lines with
  | [] => .error ()
  | headerLine :: rest =>
    let headers := parseHeaders delim headerLine
    let data := rest.map (fun l => mkRow headers ((splitQA delim l).map cleanHV))
    .ok { data := data
          headers := headers
          columnTypes := headers.map (fun h => (h, columnTypeOf h data))
          columnSemanticTypes := headers.map (fun h => (h, inferSemanticType h (sampleValues data h))) }

/-- isFinancialQuery, lines 1051-1061: every pattern is a case-insensitive
literal. -/
def isFinancialQuery (prompt : String) : Bool :=
  anySubstr ["invoice", "bill", "receipt", "transaction", "tax", "gst",
             "amount", "payment", "money", "finance", "financial", "price",
             "revenue", "income", "expense", "sales", "purchase", "cost",
             "profit", "balance", "account", "ledger", "credit", "debit",
             "cash", "bank", "budget", "fiscal", "roi", "investment"]
    (jsToLower prompt)

/-- enhancedCSVProcessing, lines 67-342.  The per-intent dispatch (lines
97-336, the switch on the classified query plus the count-query default
branch) is abstracted as the dispatch argument; it may fail, modelling a
thrown handler exception.  The try/catch of lines 81-342 turns any fault
of parsing or dispatch into the fixed parse-trouble message. -/
def enhancedCSVProcessing (dispatch : ParsedCSV → String → Except Unit String)
    (csvData : Option String) (prompt : String) : String :=
  match csvData with
  | none =>
    if isFinancialQuery prompt then
      "I need a CSV file to analyze financial data. Please upload a file with your financial, invoice, or transaction information first."
    else
      "I'm designed to analyze CSV data with a focus on Indian financial contexts. Please upload a CSV file to continue."
  | some content =>
    match (parseCSVE content).bind (fun parsed => dispatch parsed prompt) with
    | .error _ => "I had trouble parsing your CSV file. Please make sure it's properly formatted with comma-separated values."
    | .ok s => s

/-- processCSV, lines 53-64: wraps enhancedCSVProcessing in a second
try/catch; since enhancedCSVProcessing already catches every engine fault
and totally returns a string, the outer catch never fires. -/
def processCSV (dispatch : ParsedCSV → String → Except Unit String)
    (csvData : Option String) (prompt : String) : String :=
  enhancedCSVProcessing dispatch csvData prompt

/-! ### Query classifier (csvService.ts lines 586-863) -/

def monthNames : List String :=
  ["january", "february", "march", "april", "may", "june",
   "july", "august", "september", "october", "november", "december"]

/-- First full month name contained in the lowercased prompt (the loop of
lines 714-721); none models detectedMonth staying -1. -/
def detectMonthIdx (pl : String) : Option Nat :=
  monthNames.findIdx? (fun m => substrB m pl)

/-- A match of /\b(20\d{2})\b/ starting at position i of the char list. -/
def year20At (l : List Char) (i : Nat) : Bool :=
  i + 4 ≤ l.length &&
  l.getD i ' ' = '2' && l.getD (i + 1) ' ' = '0' &&
  (l.getD (i + 2) ' ').isDigit && (l.getD (i + 3) ' ').isDigit &&
  (i = 0 || !isWordChar (l.getD (i - 1) ' ')) &&
  (i + 4 = l.length || !isWordChar (l.getD (i + 4) ' '))

/-- parseInt of the first (leftmost) match of /\b(20\d{2})\b/;
none models no match (detectedYear staying -1). -/
def findYear20 (pl : String) : Option Int :=
  let l := pl.data
  match (List.range l.length).find? (fun i => year20At l i) with
  | some i =>
    some (((2000 + 10 * ((l.getD (i + 2) '0').toNat - 48) + ((l.getD (i + 3) '0').toNat - 48) : Nat) : Int))
  | none => none

/-- The voucher-terminology tokens checked with .includes on the
lowercased prompt, lines 698-706. -/
def voucherIncludeTokens : List String :=
  ["voucher", "vou no", "vou no.", "vou. no.", "vou.no.",
   "vch no", "vch no.", "v.no", "v no"]

def hasVoucherTermIncl (pl : String) : Bool :=
  voucherIncludeTokens.any (fun t => substrB t pl)

/-- Per-intent regex pattern tests, lines 591-649, on the lowercased
prompt.  A test using a.*b is modelled by seqMatch; alternation groups by
Boolean disjunction; all other patterns are literals. -/
def pSub (t : String) : String → Bool := fun pl => substrB t pl

def patHS : List (String → Bool) :=
  [pSub "highest sales", pSub "maximum sales", pSub "top sales",
   fun pl => substrB "best selling" pl || substrB "best-selling" pl,
   pSub "highest revenue", pSub "peak sales", pSub "highest amount", pSub "maximum revenue",
   pSub "largest bill", pSub "biggest transaction", pSub "highest invoice", pSub "most expensive",
   pSub "top earning", pSub "top grossing", pSub "maximum turnover", pSub "max billing"]

def patTP : List (String → Bool) :=
  [pSub "top products",
   fun pl => substrB "best selling products" pl || substrB "best-selling products" pl,
   pSub "most selling",
   pSub "popular products", pSub "trending products", fun pl => seqMatch "rank" "products" pl,
   pSub "highest sold", pSub "most demanded items", pSub "item popularity",
   pSub "fast moving products", pSub "hot selling", pSub "maximum sold",
   pSub "top inventory", pSub "most ordered items", pSub "leading products"]

def patCA : List (String → Bool) :=
  [fun pl => seqMatch "city" "highest" pl, fun pl => seqMatch "highest" "city" pl,
   pSub "compare cities",
   pSub "sales by city", pSub "city-wise", pSub "location analysis",
   pSub "region wise analysis", pSub "area performance", pSub "geographic breakdown",
   pSub "state wise sales", pSub "district performance", pSub "zone analysis",
   pSub "metro vs non-metro", pSub "tier 1 cities", pSub "urban vs rural"]

def patTC : List (String → Bool) :=
  [fun pl => seqMatch "compare" "month" pl, fun pl => seqMatch "compare" "year" pl,
   fun pl => seqMatch "compare" "period" pl,
   fun pl => seqMatch "month" "comparison" pl, pSub "trend over time", pSub "monthly comparison",
   pSub "year on year", pSub "quarterly comparison", pSub "financial year",
   pSub "month on month", pSub "year to date", pSub "mtd comparison", pSub "ytd comparison",
   pSub "seasonal analysis", pSub "festival sales", pSub "diwali sales vs regular"]

def patTAX : List (String → Bool) :=
  [pSub "tax calculation", fun pl => seqMatch "calculate" "tax" pl,
   fun pl => seqMatch "gst" "amount" pl || seqMatch "gst" "calculation" pl,
   pSub "total tax", fun pl => seqMatch "tax" "rate" pl, pSub "cgst", pSub "sgst", pSub "igst",
   fun pl => seqMatch "tax" "collected" pl,
   pSub "taxable amount", pSub "tax liability", pSub "input tax credit", pSub "itc",
   pSub "gst payment", pSub "tax invoice", pSub "gst rates", pSub "gst slabs",
   pSub "gst percentage", pSub "gst filing", pSub "gst compliance", pSub "hsn code",
   pSub "e-way bill", pSub "reverse charge", pSub "gst return", pSub "input credit"]

def patTR : List (String → Bool) :=
  [pSub "trend analysis", pSub "growth rate", pSub "sales trend",
   pSub "pattern over time", pSub "progression", pSub "growth pattern",
   pSub "sales trajectory", pSub "performance curve", pSub "market trend",
   pSub "growth forecast", pSub "demand trajectory", pSub "sales movement",
   pSub "product lifecycle", pSub "rising categories", pSub "declining categories"]

def patPI : List (String → Bool) :=
  [pSub "product insights", pSub "product performance", pSub "declining sales",
   pSub "margin", pSub "profit margin", pSub "underperforming",
   pSub "product profitability", pSub "product analytics", pSub "high margin items",
   pSub "low margin products", pSub "profitable products", pSub "product contribution",
   pSub "product mix", pSub "product category performance", pSub "dead stock"]

def patSS : List (String → Bool) :=
  [pSub "summary", pSub "statistics", pSub "overview",
   pSub "average", pSub "mean", pSub "median", pSub "summary statistics",
   pSub "data synopsis", pSub "overall picture", pSub "report summary",
   pSub "business overview", pSub "dashboard metrics", pSub "key indicators",
   pSub "high level metrics", pSub "data highlights", pSub "business snapshot"]

def patternsFor : QueryType → List (String → Bool)
  | .HIGHEST_SALES => patHS
  | .TOP_PRODUCTS => patTP
  | .CITY_ANALYSIS => patCA
  | .TIME_COMPARISON => patTC
  | .TAX_CALCULATION => patTAX
  | .TREND_ANALYSIS => patTR
  | .PRODUCT_INSIGHTS => patPI
  | .SUMMARY_STATISTICS => patSS
  | .UNKNOWN => []

/-- Pattern score of one intent, lines 794-796: the number of its
patterns matching the lowercased prompt. -/
def patternScore (pl : String) (t : QueryType) : Nat :=
  (patternsFor t).countP (fun f => f pl)

/-- The declaration order of the patterns / keywordHits objects; the
UNKNOWN entry is skipped in the pattern loop but its pattern list is
empty, so iterating it with score 0 never updates anything. -/
def intentOrder : List QueryType :=
  [.HIGHEST_SALES, .TOP_PRODUCTS, .CITY_ANALYSIS, .TIME_COMPARISON,
   .TAX_CALCULATION, .TREND_ANALYSIS, .PRODUCT_INSIGHTS, .SUMMARY_STATISTICS,
   .UNKNOWN]

/-- The strict-improvement argmax loop used both for pattern scores
(lines 790-803) and keyword hits (lines 829-836): first declared intent
wins ties. -/
def argmaxFold (score : QueryType → Nat) (init : QueryType × Nat) (l : List QueryType) :
    QueryType × Nat :=
  l.foldl (fun p t => let s := score t; if p.2 < s then (t, s) else p) init

/-- financialQueryKeywords, lines 653-691, in declaration order. -/
def financialQueryKeywords : List (String × QueryType) :=
  [("rupees", .HIGHEST_SALES), ("rupee", .HIGHEST_SALES), ("rs", .HIGHEST_SALES),
   ("rs.", .HIGHEST_SALES), ("inr", .HIGHEST_SALES), ("₹", .HIGHEST_SALES),
   ("turnover", .HIGHEST_SALES), ("revenue", .HIGHEST_SALES),
   ("lakhs", .HIGHEST_SALES), ("lakh", .HIGHEST_SALES),
   ("crores", .HIGHEST_SALES), ("crore", .HIGHEST_SALES),
   ("gst", .TAX_CALCULATION), ("cgst", .TAX_CALCULATION), ("sgst", .TAX_CALCULATION),
   ("igst", .TAX_CALCULATION), ("itc", .TAX_CALCULATION), ("tax", .TAX_CALCULATION),
   ("vat", .TAX_CALCULATION), ("gstin", .TAX_CALCULATION),
   ("gst registration", .TAX_CALCULATION), ("pan", .TAX_CALCULATION),
   ("challan", .TAX_CALCULATION),
   ("invoice", .HIGHEST_SALES), ("invoices", .HIGHEST_SALES),
   ("bill", .HIGHEST_SALES), ("bills", .HIGHEST_SALES),
   ("receipt", .HIGHEST_SALES), ("receipts", .HIGHEST_SALES),
   ("financial year", .TIME_COMPARISON), ("fy", .TIME_COMPARISON),
   ("quarter", .TIME_COMPARISON), ("q1", .TIME_COMPARISON), ("q2", .TIME_COMPARISON),
   ("q3", .TIME_COMPARISON), ("q4", .TIME_COMPARISON), ("fiscal", .TIME_COMPARISON)]

/-- normalizedWord, line 821: strip every punctuation character of the
class from a word. -/
def normalizeWord (w : List Char) : List Char :=
  w.filter (fun c =>
    !(c = ',' || c = '.' || c = '?' || c = '!' || c = ';' || c = ':' ||
      c = '\'' || c = '"' || c = '(' || c = ')'))

/-- keywordHits for one intent, lines 807-826: words of the
whitespace-split prompt whose normalized form maps to the intent.  The
source tests membership with the in operator, which also sees inherited
object properties (e.g. constructor); such a word increments an
undefined bucket to NaN, and NaN can never win the strict-improvement
comparison of the selection loop, so only the table's own keys matter
for the outcome, as modelled here. -/
def keywordHits (pl : String) (t : QueryType) : Nat :=
  (splitWsJS pl.data).countP
    (fun w =>
      match rlookup (String.mk (normalizeWord w)) financialQueryKeywords with
      | some t2 => t2 = t
      | none => false)

def taxBoostRegex (pl : String) : Bool :=
  anySubstr ["gst", "cgst", "sgst", "igst", "tax", "vat", "gstin"] pl

/-- Expansions of the regex fragment stem\.?\s?no (optional dot, optional
single whitespace char): a finite set of literal alternatives; the
trailing \.? cannot affect whether a match exists. -/
def vouNoForms (stem : String) : List String :=
  (["", "."].flatMap (fun d =>
    ["", " ", "\t", "\n", "\r", "\x0b", "\x0c"].map (fun s => stem ++ d ++ s ++ "no")))

/-- The voucher-boost regex /voucher|vou\.?\s?no\.?|vch\.?\s?no\.?|v\.no|challan/i,
line 846. -/
def voucherRegexMatch (pl : String) : Bool :=
  substrB "voucher" pl || (vouNoForms "vou").any (fun f => substrB f pl) ||
  (vouNoForms "vch").any (fun f => substrB f pl) ||
  substrB "v.no" pl || substrB "challan" pl

def countBoostRegex (pl : String) : Bool :=
  anySubstr ["how many", "count", "total number", "calculate total"] pl

/-- The three confidence-score adjustments, lines 839-857, in source
order (the voucher boost overwrites bestType before the count boost is
tested). -/
def applyBoosts (pl : String) (bh : QueryType × Nat) : QueryType × Nat :=
  let h2 := if bh.1 = .TAX_CALCULATION && taxBoostRegex pl then bh.2 + 1 else bh.2
  let b3h3 : QueryType × Nat :=
    if voucherRegexMatch pl then (.SUMMARY_STATISTICS, h2 + 2) else (bh.1, h2)
  let h4 := if countBoostRegex pl && (b3h3.1 = .HIGHEST_SALES || b3h3.1 = .TOP_PRODUCTS)
            then b3h3.2 + 1 else b3h3.2
  (b3h3.1, h4)

/-- Fallback classification, lines 783-857: pattern argmax, then keyword
argmax only when the pattern score is zero, then the boosts.  The second
component is the final raw score (highestScore). -/
def fallbackClassify (pl : String) : QueryType × Nat :=
  let pb := argmaxFold (patternScore pl) (.UNKNOWN, 0) intentOrder
  let kb := if pb.2 = 0 then argmaxFold (keywordHits pl) pb intentOrder else pb
  applyBoosts pl kb

/-- classifyQuery, lines 587-863 (the OpenAI block, lines 747-781, is
dead code behind a comment): the voucher fast path returns
TIME_COMPARISON at 0.85 when a full month name or a 20xx year is
detected and SUMMARY_STATISTICS at 0.75 otherwise; the fallback returns
min(rawScore/4, 0.95) for a positive raw score and 0.4 otherwise. -/
def classifyQuery (prompt : String) : QueryType × ℚ :=
  let pl := jsToLower prompt
  if hasVoucherTermIncl pl then
    let detectedMonth : Int := match detectMonthIdx pl with
      | some i => i
      | none => -1
    let detectedYear : Int := match findYear20 pl with
      | some y => y
      | none => -1
    if detectedMonth ≥ 0 || detectedYear > 0 then
      (.TIME_COMPARISON, 0.85)
    else
      (.SUMMARY_STATISTICS, 0.75)
  else
    let ts := fallbackClassify pl
    (ts.1, if 0 < ts.2 then min ((ts.2 : ℚ) / 4) 0.95 else 0.4)

/-! ### Query handlers (csvService.ts lines 1090-1269 and 1995-2169) -/

/-- The shared cell-cleaning chain of the handlers:
.replace(/,/g, '').replace(currency-symbol-regex-g, '').replace(/Rs\./i, '').trim(). -/
def cleanNumStr (v : String) : String :=
  String.mk (trimJS (removeRsDot (removeAllChar '₹' (removeAllChar ',' v.data))))

/-- One accumulation step of the tax sums, lines 1126-1146: add the
cleaned cell when Number() accepts it and the cleaned cell is nonempty. -/
def addIfNum (acc : ℚ) (raw : String) : ℚ :=
  let v := cleanNumStr raw
  match jsNumber v with
  | some q => if v ≠ "" then acc + q else acc
  | none => acc

/-- The parsed value of one cell under the tax-handler guard, as an
Option: the specification-side counterpart of addIfNum. -/
def parsedCell (raw : String) : Option ℚ :=
  let v := cleanNumStr raw
  match jsNumber v with
  | some q => if v ≠ "" then some q else none
  | none => none

/-- Sum of the parsed cells of the given columns over all rows (columns
outer, rows inner, as in the source loops). -/
def sumParsedCells (data : List Row) (cols : List String) : ℚ :=
  (cols.map (fun c => ((data.filterMap (fun r => parsedCell (rowGet r c))).sum : ℚ))).sum

/-- handleTaxQuery, lines 1091-1195.  The columnTypes parameter of the
source signature is unused by the body and elided; of the
entityReferences object only the specificEntities field is read, so the
handler takes that list directly. -/
def handleTaxQuery (prompt : String) (data : List Row) (headers : List String)
    (sems : String → ColumnSemanticType) (specificEntities : List String) : String :=
  let taxColumns := headers.filter
    (fun h => sems h = .TAX || sems h = .TAX_RATE)
  if taxColumns = [] then
    "I couldn't find specific tax columns in your data. The available columns are: " ++
      String.intercalate ", " headers ++
      ". Could you clarify which columns contain tax information?"
  else
    let taxAmountColumns := taxColumns.filter (fun h => sems h = .TAX)
    let amountColumns := headers.filter (fun h => sems h = .AMOUNT)
    let totalTax := taxAmountColumns.foldl
      (fun acc col => data.foldl (fun a row => addIfNum a (rowGet row col)) acc) 0
    let taxableAmount := amountColumns.foldl
      (fun acc col => data.foldl (fun a row => addIfNum a (rowGet row col)) acc) 0
    let pl := jsToLower prompt
    if substrB "taxable amount" pl || substrB "taxable value" pl || substrB "tax base" pl then
      "The total taxable amount across all records is ₹" ++ toFixed2 taxableAmount ++
        ". This includes data from the following amount columns: " ++
        String.intercalate ", " amountColumns ++ "."
    else
      match specificEntities with
      | entity :: _ =>
        let entityRows := data.filter
          (fun row => row.any (fun p => substrB (jsToLower entity) (jsToLower p.2)))
        let entityCount := entityRows.length
        let entityTax := entityRows.foldl
          (fun a row => taxAmountColumns.foldl (fun a2 col => addIfNum a2 (rowGet row col)) a) 0
        if entityCount > 0 then
          "I found " ++ toString entityCount ++ " records related to \"" ++ entity ++
            "\". The total tax amount for these records is ₹" ++ toFixed2 entityTax ++ "."
        else
          "I couldn't find any records related to \"" ++ entity ++ "\" in your data."
      | [] =>
        "The total tax amount is ₹" ++ toFixed2 totalTax ++
          ", calculated from the following tax columns: " ++
          String.intercalate ", " taxAmountColumns ++
          ". The total taxable value is ₹" ++ toFixed2 taxableAmount ++ "."

/-- The maximum scan of handleHighestSalesQuery, lines 1233-1245: running
maximum starting at 0, a row stored only when its parsed value strictly
exceeds the running maximum; columns outer, rows inner. -/
def highestScan (data : List Row) (cols : List String) : ℚ × Option Row :=
  cols.foldl
    (fun st col => data.foldl
      (fun st2 row =>
        match jsParseFloat (cleanNumStr (rowGet row col)) with
        | some v => if st2.1 < v then (v, some row) else st2
        | none => st2)
      st)
    (0, none)

/-- handleHighestSalesQuery, lines 1198-1269.  The columnTypes and
entityReferences parameters of the source signature are unused by the
body and elided. -/
def handleHighestSalesQuery (prompt : String) (data : List Row) (headers : List String)
    (sems : String → ColumnSemanticType) : String :=
  let amountColumns := headers.filter (fun h => sems h = .AMOUNT)
  let quantityColumns := headers.filter (fun h => sems h = .QUANTITY)
  if amountColumns = [] && quantityColumns = [] then
    "I couldn't find sales amount or quantity columns in your data. The available columns are: " ++
      String.intercalate ", " headers ++
      ". Could you clarify which columns contain sales information?"
  else
    let useAmount := !(substrB "quantity" (jsToLower prompt))
    let relevantColumns := if useAmount then amountColumns else quantityColumns
    if relevantColumns = [] then
      "I couldn't find " ++ (if useAmount then "amount" else "quantity") ++
        " columns in your data. Available columns are: " ++
        String.intercalate ", " headers ++ "."
    else
      let productColumns := headers.filter (fun h => sems h = .PRODUCT)
      let hv := (highestScan data relevantColumns).1
      match (highestScan data relevantColumns).2 with
      | none =>
        "I couldn't find any valid sales " ++ (if useAmount then "amount" else "quantity") ++
          " values in your data."
      | some row =>
        let base := "The highest sales " ++ (if useAmount then "amount" else "quantity") ++
          " is " ++ (if useAmount then "₹" else "") ++
          (if useAmount then toFixed2 hv else toFixed0 hv) ++ "."
        let productPart := match productColumns with
          | p :: _ => " This is for the product \"" ++ rowGet row p ++ "\"."
          | [] => ""
        let dateColumns := headers.filter (fun h => sems h = .DATE)
        let datePart := match dateColumns with
          | d :: _ => " This occurred on " ++ rowGet row d ++ "."
          | [] => ""
        base ++ productPart ++ datePart

/-! ### PRODUCT_INSIGHTS time-series pieces (lines 2050-2131) -/

/-- Period extraction, lines 2074-2090: split the date string on dash or
slash, read parts[1] as the month and parts[2] as the year with parseInt,
skip on NaN, and render the template month/year without padding. -/
def periodOf (dateStr : String) : Option String :=
  let parts := splitSep isDashSlash dateStr.data
  if parts.length ≥ 3 then
    match parseIntJS (String.mk (parts.getD 1 [])), parseIntJS (String.mk (parts.getD 2 [])) with
    | some m, some y => some (toString m ++ "/" ++ toString y)
    | _, _ => none
  else none

def assocReplace {β : Type} (l : List (String × β)) (k : String) (v : β) : List (String × β) :=
  l.map (fun p => if p.1 = k then (k, v) else p)

/-- productTimeData[product][period] += value with JS object semantics
(fresh keys appended, existing keys updated in place). -/
def bumpPTD (ptd : List (String × List (String × ℚ))) (product period : String) (value : ℚ) :
    List (String × List (String × ℚ)) :=
  match rlookup product ptd with
  | none => ptd ++ [(product, [(period, value)])]
  | some ts =>
    match rlookup period ts with
    | none => assocReplace ptd product (ts ++ [(period, value)])
    | some v0 => assocReplace ptd product (assocReplace ts period (v0 + value))

/-- The productTimeData accumulation of lines 2053-2102 (the rows whose
product is empty, whose value does not parse, whose date cell is empty or
whose period cannot be determined are skipped). -/
def buildProductTimeData (data : List Row) (productCol valueCol : String)
    (dateCol : Option String) : List (String × List (String × ℚ)) :=
  data.foldl
    (fun ptd row =>
      let product := rowGet row productCol
      if product = "" then ptd
      else
        match jsParseFloat (cleanNumStr (rowGet row valueCol)) with
        | none => ptd
        | some value =>
          match dateCol with
          | none => ptd
          | some dc =>
            let dateStr := rowGet row dc
            if dateStr = "" then ptd
            else
              match periodOf dateStr with
              | none => ptd
              | some period => bumpPTD ptd product period value)
    []

/-- Array.prototype.sort() on distinct string keys: ascending code-unit
(lexicographic) order, realised by insertion sort. -/
def insertSorted (le : String → String → Bool) (x : String) : List String → List String
  | [] => [x]
  | y :: t => if le x y then x :: y :: t else y :: insertSorted le x t

def sortStrings (le : String → String → Bool) (l : List String) : List String :=
  l.foldr (insertSorted le) []

/-- Lexicographic code-unit comparison of strings, the order
Array.prototype.sort() uses on its default string conversion. -/
def charListLt : List Char → List Char → Bool
  | [], [] => false
  | [], _ :: _ => true
  | _ :: _, [] => false
  | a :: as, b :: bs => if a < b then true else if b < a then false else charListLt as bs

def strLe (a b : String) : Bool := !(charListLt b.data a.data)

def sortStr (l : List String) : List String :=
  sortStrings strLe l

/-- The declining test of lines 2117-2129 for one product's time series:
sort the period keys as strings, require at least 3, and compare the
values of the last three sorted keys. -/
def isDecliningTS (ts : List (String × ℚ)) : Bool :=
  let periods := sortStr (ts.map Prod.fst)
  if periods.length ≥ 3 then
    match periods.drop (periods.length - 3) with
    | [p1, p2, p3] =>
      decide ((rlookup p2 ts).getD 0 < (rlookup p1 ts).getD 0) &&
      decide ((rlookup p3 ts).getD 0 < (rlookup p2 ts).getD 0)
    | _ => false
  else false

/-- decliningProducts, lines 2113-2131: the products whose series passes
the declining test, in insertion order. -/
def decliningProducts (ptd : List (String × List (String × ℚ))) : List String :=
  (ptd.filter (fun p => isDecliningTS p.2)).map Prod.fst

/-- Modelled from the spec: "flags a product as declining if its last
three chronological period values are strictly decreasing" — the
chronological order of the month/year period keys sorts by the parsed
year first and the parsed month second.  This definition exists only to
state the spec's reading next to the source's lexicographic one. -/
def chronoKey (p : String) : Int × Int :=
  let parts := splitSep (fun c => c = '/') p.data
  ((parseIntJS (String.mk (parts.getD 1 []))).getD 0,
   (parseIntJS (String.mk (parts.getD 0 []))).getD 0)

def chronoLe (a b : String) : Bool :=
  let ka := chronoKey a
  let kb := chronoKey b
  decide (ka.1 < kb.1 || (ka.1 = kb.1 && ka.2 ≤ kb.2))

/-- Modelled from the spec: the declining test with the period keys in
chronological order instead of string order. -/
def isDecliningChrono (ts : List (String × ℚ)) : Bool :=
  let periods := sortStrings chronoLe (ts.map Prod.fst)
  if periods.length ≥ 3 then
    match periods.drop (periods.length - 3) with
    | [p1, p2, p3] =>
      decide ((rlookup p2 ts).getD 0 < (rlookup p1 ts).getD 0) &&
      decide ((rlookup p3 ts).getD 0 < (rlookup p2 ts).getD 0)
    | _ => false
  else false

/-! ### Lemmas about the accumulation loops -/

lemma addIfNum_eq (a : ℚ) (raw : String) :
    addIfNum a raw = a + (parsedCell raw).getD 0 := by
  unfold addIfNum parsedCell
  cases h : jsNumber (cleanNumStr raw) with
  | none => simp only [h, Option.getD_none, add_zero]
  | some q =>
    simp only [h]
    by_cases hv : cleanNumStr raw = ""
    · simp [if_pos hv]
    · simp [if_neg hv]

lemma foldl_addIfNum (col : String) (data : List Row) :
    ∀ acc : ℚ,
      data.foldl (fun a row => addIfNum a (rowGet row col)) acc =
        acc + ((data.filterMap (fun r => parsedCell (rowGet r col))).sum : ℚ) := by
  induction data with
  | nil => intro acc; simp
  | cons r t ih =>
    intro acc
    simp only [List.foldl_cons, List.filterMap_cons]
    rw [ih, addIfNum_eq]
    cases h : parsedCell (rowGet r col) with
    | none => simp [h]
    | some q => simp [h]; ring

lemma foldl_cols_addIfNum (data : List Row) (cols : List String) :
    ∀ acc : ℚ,
      cols.foldl (fun acc2 col => data.foldl (fun a row => addIfNum a (rowGet row col)) acc2) acc =
        acc + sumParsedCells data cols := by
  induction cols with
  | nil => intro acc; simp [sumParsedCells]
  | cons c t ih =>
    intro acc
    simp only [List.foldl_cons]
    rw [ih, foldl_addIfNum]
    simp [sumParsedCells]
    ring

lemma filter_tax_of_filter_taxish (headers : List String) (sems : String → ColumnSemanticType) :
    (headers.filter (fun h => sems h = ColumnSemanticType.TAX || sems h = ColumnSemanticType.TAX_RATE)).filter
        (fun h => sems h = ColumnSemanticType.TAX) =
      headers.filter (fun h => sems h = ColumnSemanticType.TAX) := by
  rw [List.filter_filter]
  apply List.filter_congr
  intro a _
  by_cases h2 : sems a = ColumnSemanticType.TAX <;> simp [h2]

/-- C3.  With no extracted entity and a question not asking for the
taxable base, the TAX_CALCULATION handler reports as the total tax the
sum of every cell of every tax-amount column that survives the shared
cleaning (commas, the currency symbol and "Rs." stripped) and parses;
non-parsing cells contribute nothing. -/
theorem tax_handler_total_is_sum_of_parsed_cells
    (prompt : String) (data : List Row) (headers : List String)
    (sems : String → ColumnSemanticType)
    (htax : headers.filter
      (fun h => sems h = ColumnSemanticType.TAX || sems h = ColumnSemanticType.TAX_RATE) ≠ [])
    (hphrase : (substrB "taxable amount" (jsToLower prompt) ||
                substrB "taxable value" (jsToLower prompt) ||
                substrB "tax base" (jsToLower prompt)) = false) :
    handleTaxQuery prompt data headers sems [] =
      "The total tax amount is ₹" ++
        toFixed2 (sumParsedCells data (headers.filter (fun h => sems h = ColumnSemanticType.TAX))) ++
        ", calculated from the following tax columns: " ++
        String.intercalate ", "
          (headers.filter (fun h => sems h = ColumnSemanticType.TAX)) ++
        ". The total taxable value is ₹" ++
        toFixed2 (sumParsedCells data (headers.filter (fun h => sems h = ColumnSemanticType.AMOUNT))) ++
        "." := by
  simp only [handleTaxQuery, if_neg htax, hphrase, Bool.false_eq_true, if_false,
    foldl_cols_addIfNum, zero_add, filter_tax_of_filter_taxish]

lemma foldl_inv_mem {α β : Type} (f : α → β → α) (P : α → Prop) :
    ∀ (l : List β), (∀ a b, b ∈ l → P a → P (f a b)) → ∀ a, P a → P (l.foldl f a) := by
  intro l
  induction l with
  | nil => intro _ a ha; simpa using ha
  | cons b t ih =>
    intro hstep a ha
    simp only [List.foldl_cons]
    exact ih (fun a2 b2 hb2 => hstep a2 b2 (List.mem_cons_of_mem _ hb2)) _
      (hstep a b (List.mem_cons_self _ _) ha)

lemma highestScan_step_inv (col : String) (data : List Row)
    (st : ℚ × Option Row) (h : 0 ≤ st.1 ∧ (st.2.isSome → 0 < st.1)) :
    0 ≤ (data.foldl
      (fun st2 row =>
        match jsParseFloat (cleanNumStr (rowGet row col)) with
        | some v => if st2.1 < v then (v, some row) else st2
        | none => st2) st).1 ∧
    ((data.foldl
      (fun st2 row =>
        match jsParseFloat (cleanNumStr (rowGet row col)) with
        | some v => if st2.1 < v then (v, some row) else st2
        | none => st2) st).2.isSome →
      0 < (data.foldl
      (fun st2 row =>
        match jsParseFloat (cleanNumStr (rowGet row col)) with
        | some v => if st2.1 < v then (v, some row) else st2
        | none => st2) st).1) := by
  refine foldl_inv_mem _ (fun st2 => 0 ≤ st2.1 ∧ (st2.2.isSome → 0 < st2.1)) data ?_ st h
  intro a row _ ha
  cases hp : jsParseFloat (cleanNumStr (rowGet row col)) with
  | none => simpa [hp] using ha
  | some v =>
    by_cases hlt : a.1 < v
    · simp only [hp, if_pos hlt]
      exact ⟨le_of_lt (lt_of_le_of_lt ha.1 hlt), fun _ => lt_of_le_of_lt ha.1 hlt⟩
    · simpa [hp, hlt] using ha

lemma highestScan_pos (data : List Row) (cols : List String) :
    (highestScan data cols).2.isSome → 0 < (highestScan data cols).1 := by
  unfold highestScan
  have := foldl_inv_mem
    (fun st col => data.foldl
      (fun st2 row =>
        match jsParseFloat (cleanNumStr (rowGet row col)) with
        | some v => if st2.1 < v then (v, some row) else st2
        | none => st2) st)
    (fun st => 0 ≤ st.1 ∧ (st.2.isSome → 0 < st.1)) cols
    (fun st col _ hst => highestScan_step_inv col data st hst)
    (0, none) (by simp)
  exact this.2

lemma highestScan_none_of_nonpos (data : List Row) (cols : List String)
    (h : ∀ row ∈ data, ∀ col ∈ cols, (jsParseFloat (cleanNumStr (rowGet row col))).getD 0 ≤ 0) :
    highestScan data cols = (0, none) := by
  unfold highestScan
  refine foldl_inv_mem _ (fun st => st = ((0 : ℚ), (none : Option Row))) cols ?_ _ rfl
  intro st col hcol hst
  refine foldl_inv_mem _ (fun st2 => st2 = ((0 : ℚ), (none : Option Row))) data ?_ st hst
  intro st2 row hrow hst2
  subst hst2
  cases hp : jsParseFloat (cleanNumStr (rowGet row col)) with
  | none => simp [hp]
  | some v =>
    have hv : v ≤ 0 := by
      have := h row hrow col hcol
      rw [hp] at this
      simpa using this
    simp [hp, not_lt_of_le hv]

/-- C10.  The highest-sales scan starts its running maximum at 0 and
stores a row only on strict improvement, so a stored row always carries a
strictly positive value; consequently, when every cell of the chosen
(amount, or quantity when the question says "quantity") columns parses to
a value at most 0 or does not parse, the handler returns the
no-valid-values fallback instead of reporting a maximum. -/
theorem highest_sales_positive_only :
    (∀ (data : List Row) (cols : List String),
      (highestScan data cols).2.isSome → 0 < (highestScan data cols).1) ∧
    (∀ (prompt : String) (data : List Row) (headers : List String)
       (sems : String → ColumnSemanticType),
      substrB "quantity" (jsToLower prompt) = false →
      headers.filter (fun h => sems h = ColumnSemanticType.AMOUNT) ≠ [] →
      (∀ row ∈ data, ∀ col ∈ headers.filter (fun h => sems h = ColumnSemanticType.AMOUNT),
        (jsParseFloat (cleanNumStr (rowGet row col))).getD 0 ≤ 0) →
      handleHighestSalesQuery prompt data headers sems =
        "I couldn't find any valid sales amount values in your data.") ∧
    (∀ (prompt : String) (data : List Row) (headers : List String)
       (sems : String → ColumnSemanticType),
      substrB "quantity" (jsToLower prompt) = true →
      headers.filter (fun h => sems h = ColumnSemanticType.QUANTITY) ≠ [] →
      (∀ row ∈ data, ∀ col ∈ headers.filter (fun h => sems h = ColumnSemanticType.QUANTITY),
        (jsParseFloat (cleanNumStr (rowGet row col))).getD 0 ≤ 0) →
      handleHighestSalesQuery prompt data headers sems =
        "I couldn't find any valid sales quantity values in your data.") := by
  refine ⟨fun data cols => highestScan_pos data cols, ?_, ?_⟩
  · intro prompt data headers sems hq hrel hnp
    simp [handleHighestSalesQuery, hq, hrel, highestScan_none_of_nonpos data _ hnp]
  · intro prompt data headers sems hq hrel hnp
    simp [handleHighestSalesQuery, hq, hrel, highestScan_none_of_nonpos data _ hnp]

/-- The spec's concrete TAX_CALCULATION table: one "GST Amt" column with
the cells "100", "200", "₹50". -/
def gstData : List Row := [[("GST Amt", "100")], [("GST Amt", "200")], [("GST Amt", "₹50")]]

def gstSems : String → ColumnSemanticType :=
  fun h => inferSemanticType h ["100", "200", "₹50"]

set_option maxRecDepth 8192 in
unseal Rat.add Rat.mul Rat.inv Rat.sub Rat.ofScientific in
/-- C3 witness: on the concrete table the reported total tax is 350.00. -/
theorem tax_handler_total_350_witness :
    handleTaxQuery "calculate total tax" gstData ["GST Amt"] gstSems [] =
      "The total tax amount is ₹350.00, calculated from the following tax columns: GST Amt. The total taxable value is ₹0.00." :=
  (tax_handler_total_is_sum_of_parsed_cells "calculate total tax" gstData ["GST Amt"] gstSems
    (by decide) (by decide)).trans (by decide)

set_option maxRecDepth 8192 in
unseal Rat.add Rat.mul Rat.inv Rat.sub Rat.ofScientific in
/-- C10 witness: a table whose only amount column holds -5 yields the
fallback, and the general scan facts hold at that table. -/
theorem highest_sales_positive_only_witness :
    handleHighestSalesQuery "highest sales" [[("Amount", "-5")]] ["Amount"]
        (fun h => inferSemanticType h ["-5"]) =
      "I couldn't find any valid sales amount values in your data." :=
  highest_sales_positive_only.2.1 "highest sales" [[("Amount", "-5")]] ["Amount"]
    (fun h => inferSemanticType h ["-5"]) (by decide) (by decide) (by decide)

/-- C9.  A table with no amount-semantic and no quantity-semantic column
makes the HIGHEST_SALES handler return its clarification message listing
the actual headers, and a table with no tax-semantic column makes the
TAX_CALCULATION handler do the same; both handlers are total functions
into String, so no exception can escape. -/
theorem missing_columns_yield_header_listing
    (prompt : String) (data : List Row) (headers : List String)
    (sems : String → ColumnSemanticType) (entities : List String) :
    (headers.filter (fun h => sems h = ColumnSemanticType.AMOUNT) = [] →
     headers.filter (fun h => sems h = ColumnSemanticType.QUANTITY) = [] →
     handleHighestSalesQuery prompt data headers sems =
       "I couldn't find sales amount or quantity columns in your data. The available columns are: " ++
         String.intercalate ", " headers ++
         ". Could you clarify which columns contain sales information?") ∧
    (headers.filter
        (fun h => sems h = ColumnSemanticType.TAX || sems h = ColumnSemanticType.TAX_RATE) = [] →
     handleTaxQuery prompt data headers sems entities =
       "I couldn't find specific tax columns in your data. The available columns are: " ++
         String.intercalate ", " headers ++
         ". Could you clarify which columns contain tax information?") := by
  constructor
  · intro h1 h2
    simp [handleHighestSalesQuery, h1, h2]
  · intro h
    simp [handleTaxQuery, h]

set_option maxRecDepth 8192 in
unseal Rat.add Rat.mul Rat.inv Rat.sub Rat.ofScientific in
/-- C9 witness: the concrete two-column table with no value-like column. -/
theorem missing_columns_yield_header_listing_witness :
    handleHighestSalesQuery "highest sales" [] ["Name", "City"] (fun _ => ColumnSemanticType.UNKNOWN) =
      "I couldn't find sales amount or quantity columns in your data. The available columns are: Name, City. Could you clarify which columns contain sales information?" ∧
    handleTaxQuery "total tax" [] ["Name", "City"] (fun _ => ColumnSemanticType.UNKNOWN) [] =
      "I couldn't find specific tax columns in your data. The available columns are: Name, City. Could you clarify which columns contain tax information?" :=
  ⟨((missing_columns_yield_header_listing "highest sales" [] ["Name", "City"]
      (fun _ => ColumnSemanticType.UNKNOWN) []).1 (by decide) (by decide)).trans (by decide),
   ((missing_columns_yield_header_listing "total tax" [] ["Name", "City"]
      (fun _ => ColumnSemanticType.UNKNOWN) []).2 (by decide)).trans (by decide)⟩

lemma findYear20_pos (pl : String) (y : Int) (h : findYear20 pl = some y) : 0 < y := by
  simp only [findYear20] at h
  cases hf : (List.range pl.data.length).find? (fun i => year20At pl.data i) with
  | none => rw [hf] at h; cases h
  | some i =>
    rw [hf] at h
    injection h with h2
    omega

/-- C1 (amended).  Whenever the prompt carries a voucher token, the
classifier short-circuits: TIME_COMPARISON at 0.85 when a full month name
OR a word-bounded 20xx year is embedded, SUMMARY_STATISTICS at 0.75 only
when neither is. -/
theorem voucher_fastpath_month_or_year (prompt : String)
    (hv : hasVoucherTermIncl (jsToLower prompt) = true) :
    classifyQuery prompt =
      (if (detectMonthIdx (jsToLower prompt)).isSome || (findYear20 (jsToLower prompt)).isSome
       then (QueryType.TIME_COMPARISON, (0.85 : ℚ))
       else (QueryType.SUMMARY_STATISTICS, (0.75 : ℚ))) := by
  unfold classifyQuery
  rw [if_pos hv]
  cases hm : detectMonthIdx (jsToLower prompt) with
  | some i => simp [hm]
  | none =>
    cases hy : findYear20 (jsToLower prompt) with
    | none => simp [hm, hy]
    | some y =>
      have hypos : 0 < y := findYear20_pos _ _ hy
      simp [hm, hy, hypos]

set_option maxRecDepth 8192 in
unseal Rat.add Rat.mul Rat.inv Rat.sub Rat.ofScientific in
/-- C1 witness: the spec's example prompt carries a voucher token and an
embedded 20xx year, so the fast path yields TIME_COMPARISON at 0.85. -/
theorem voucher_fastpath_witness :
    classifyQuery "How many vouchers for Feb 2025?" = (QueryType.TIME_COMPARISON, 0.85) :=
  (voucher_fastpath_month_or_year "How many vouchers for Feb 2025?" (by decide)).trans
    (by decide)

set_option maxRecDepth 8192 in
unseal Rat.add Rat.mul Rat.inv Rat.sub Rat.ofScientific in
/-- C1 counterexample: a voucher prompt with a year but no full month
name is classified TIME_COMPARISON at 0.85 by the code, where the claim
(month AND year required for the 0.85 branch) predicts
SUMMARY_STATISTICS at 0.75. -/
theorem voucher_fastpath_year_only_counterexample :
    hasVoucherTermIncl (jsToLower "How many vouchers in 2025?") = true ∧
    detectMonthIdx (jsToLower "How many vouchers in 2025?") = none ∧
    classifyQuery "How many vouchers in 2025?" = (QueryType.TIME_COMPARISON, 0.85) ∧
    classifyQuery "How many vouchers in 2025?" ≠ (QueryType.SUMMARY_STATISTICS, 0.75) := by
  refine ⟨by decide, by decide, by decide, ?_⟩
  intro h
  have h2 : (classifyQuery "How many vouchers in 2025?").1 = QueryType.SUMMARY_STATISTICS :=
    congrArg Prod.fst h
  have h3 : (classifyQuery "How many vouchers in 2025?").1 = QueryType.TIME_COMPARISON := by
    decide
  rw [h3] at h2
  cases h2

lemma argmaxFold_snd_mono (score : QueryType → Nat) (l : List QueryType) :
    ∀ init : QueryType × Nat, init.2 ≤ (argmaxFold score init l).2 := by
  induction l with
  | nil => intro init; simp [argmaxFold]
  | cons t ts ih =>
    intro init
    simp only [argmaxFold, List.foldl_cons] at *
    by_cases h : init.2 < score t
    · simp only [if_pos h]
      exact le_trans (le_of_lt h) (ih (t, score t))
    · simp only [if_neg h]
      exact ih init

lemma argmaxFold_eq_of_snd_zero (score : QueryType → Nat) (l : List QueryType) :
    ∀ init : QueryType × Nat, (argmaxFold score init l).2 = 0 → argmaxFold score init l = init := by
  induction l with
  | nil => intro init _; rfl
  | cons t ts ih =>
    intro init h0
    simp only [argmaxFold, List.foldl_cons] at *
    by_cases h : init.2 < score t
    · exfalso
      rw [if_pos h] at h0
      have := argmaxFold_snd_mono score ts (t, score t)
      simp only [argmaxFold] at this
      omega
    · rw [if_neg h] at h0 ⊢
      exact ih init h0

lemma applyBoosts_of_snd_zero (pl : String) (bh : QueryType × Nat)
    (h : (applyBoosts pl bh).2 = 0) : (applyBoosts pl bh).1 = bh.1 ∧ bh.2 = 0 := by
  by_cases hvr : voucherRegexMatch pl
  · exfalso
    simp only [applyBoosts, hvr, if_true] at h
    split at h <;> omega
  · constructor
    · simp [applyBoosts, hvr]
    · simp only [applyBoosts, hvr, Bool.false_eq_true, if_false] at h
      split at h <;> split at h <;> omega

lemma fallbackClassify_eq_of_snd_zero (pl : String)
    (h : (fallbackClassify pl).2 = 0) : fallbackClassify pl = (QueryType.UNKNOWN, 0) := by
  have hdef : fallbackClassify pl =
      applyBoosts pl
        (if (argmaxFold (patternScore pl) (QueryType.UNKNOWN, 0) intentOrder).2 = 0
         then argmaxFold (keywordHits pl)
                (argmaxFold (patternScore pl) (QueryType.UNKNOWN, 0) intentOrder) intentOrder
         else argmaxFold (patternScore pl) (QueryType.UNKNOWN, 0) intentOrder) := rfl
  rw [hdef] at h ⊢
  obtain ⟨hfst, hkb0⟩ := applyBoosts_of_snd_zero pl _ h
  by_cases hpb : (argmaxFold (patternScore pl) (QueryType.UNKNOWN, 0) intentOrder).2 = 0
  · rw [if_pos hpb] at hfst hkb0 h ⊢
    rw [argmaxFold_eq_of_snd_zero (patternScore pl) intentOrder _ hpb] at hfst hkb0 h ⊢
    rw [argmaxFold_eq_of_snd_zero (keywordHits pl) intentOrder _ hkb0] at hfst h ⊢
    exact Prod.ext hfst h
  · rw [if_neg hpb] at hkb0
    exact absurd hkb0 hpb

/-- C7.  The classifier's confidence always lies in [0, 1]; when the
voucher fast path does not fire, it is min(rawScore/4, 0.95) for a
positive raw score, and 0.4 with intent UNKNOWN for raw score zero. -/
theorem classify_confidence_formula (prompt : String) :
    0 ≤ (classifyQuery prompt).2 ∧ (classifyQuery prompt).2 ≤ 1 ∧
    (hasVoucherTermIncl (jsToLower prompt) = false →
      ((0 < (fallbackClassify (jsToLower prompt)).2 →
        (classifyQuery prompt).2 =
          min (((fallbackClassify (jsToLower prompt)).2 : ℚ) / 4) 0.95) ∧
       ((fallbackClassify (jsToLower prompt)).2 = 0 →
        (classifyQuery prompt).2 = 0.4 ∧ (classifyQuery prompt).1 = QueryType.UNKNOWN))) := by
  unfold classifyQuery
  by_cases hv : hasVoucherTermIncl (jsToLower prompt)
  · rw [if_pos hv]
    refine ⟨?_, ?_, fun hc => absurd hv (by simp [hc])⟩ <;>
      (cases hm : detectMonthIdx (jsToLower prompt) <;>
       cases hy : findYear20 (jsToLower prompt) <;>
       simp only [hm, hy] <;> (split <;> norm_num))
  · rw [if_neg hv]
    refine ⟨?_, ?_, fun _ => ⟨fun hs => ?_, fun hs => ?_⟩⟩
    · by_cases hs : 0 < (fallbackClassify (jsToLower prompt)).2
      · simp only [if_pos hs]
        exact le_min (by positivity) (by norm_num)
      · simp only [if_neg hs]
        norm_num
    · by_cases hs : 0 < (fallbackClassify (jsToLower prompt)).2
      · simp only [if_pos hs]
        exact le_trans (min_le_right _ _) (by norm_num)
      · simp only [if_neg hs]
        norm_num
    · simp [if_pos hs]
    · have hfc := fallbackClassify_eq_of_snd_zero _ hs
      simp [hfc]

set_option maxRecDepth 8192 in
unseal Rat.add Rat.mul Rat.inv Rat.sub Rat.ofScientific in
/-- C7 witness: a prompt matching no pattern and no keyword gets raw
score 0, confidence 0.4 and intent UNKNOWN. -/
theorem classify_confidence_formula_witness :
    (classifyQuery "hello").2 = 0.4 ∧ (classifyQuery "hello").1 = QueryType.UNKNOWN :=
  ((classify_confidence_formula "hello").2.2 (by decide)).2 (by decide)

/-- C2.  The engine entry point is a total function into String: whatever
the dispatch does, a parse failure (the one fault point of parseCSV, hit
e.g. by an empty file) and even a fault inside a handler both surface as
the fixed user-facing parse-trouble message, never as a propagated
exception; an empty file takes exactly that path. -/
theorem engine_total_and_parse_failure_message
    (dispatch : ParsedCSV → String → Except Unit String) (prompt content : String) :
    ((parseCSVE content).isOk = false →
      processCSV dispatch (some content) prompt =
        "I had trouble parsing your CSV file. Please make sure it's properly formatted with comma-separated values.") ∧
    (∀ parsed, parseCSVE content = .ok parsed → dispatch parsed prompt = .error () →
      processCSV dispatch (some content) prompt =
        "I had trouble parsing your CSV file. Please make sure it's properly formatted with comma-separated values.") ∧
    processCSV dispatch (some "") prompt =
      "I had trouble parsing your CSV file. Please make sure it's properly formatted with comma-separated values." := by
  refine ⟨?_, ?_, ?_⟩
  · intro hfail
    unfold processCSV enhancedCSVProcessing
    cases hp : parseCSVE content with
    | error e => simp [hp, Except.bind]
    | ok parsed => rw [hp] at hfail; cases hfail
  · intro parsed hok herr
    simp [processCSV, enhancedCSVProcessing, hok, Except.bind, herr]
  · unfold processCSV enhancedCSVProcessing
    have hp : parseCSVE "" = .error () := rfl
    simp [hp, Except.bind]

/-- C2 witness: a whitespace-only file fails parsing; a parsable file
with a faulting dispatch is also caught. -/
theorem engine_parse_failure_witness :
    processCSV (fun _ _ => Except.error ()) (some " ") "q" =
      "I had trouble parsing your CSV file. Please make sure it's properly formatted with comma-separated values." ∧
    processCSV (fun _ _ => Except.error ()) (some "a,b\n1") "q" =
      "I had trouble parsing your CSV file. Please make sure it's properly formatted with comma-separated values." :=
  ⟨(engine_total_and_parse_failure_message (fun _ _ => Except.error ()) "q" " ").1 (by decide),
   (engine_total_and_parse_failure_message (fun _ _ => Except.error ()) "q" "a,b\n1").2.1
     ((parseCSVE "a,b\n1").toOption.getD ⟨[], [], [], []⟩) rfl rfl⟩

/-- C4.  Evaluation of delimiter detection at the spec's own test input:
on the header line a;b;c the semicolon pattern has 2 matches, but the
pipe candidate is interpolated unescaped into the RegExp, so its pattern
degenerates to two alternated zero-width assertions matching the empty
string at all 6 positions of the line; the maximal count therefore
belongs to the pipe and the detected delimiter is the pipe character,
not the semicolon the spec requires. -/
theorem delimiter_detection_pipe_bug :
    countAdj ';' "a;b;c".data = 2 ∧
    pipeCount "a;b;c".data = 6 ∧
    detectDelimiter "a;b;c\n1;2;3" = '|' ∧
    detectDelimiter "a;b;c\n1;2;3" ≠ ';' := by decide

/-- The ordered category table behind the spec's reading of
inferSemanticType: each entry is (predicate on lowercased header and
sample values, resulting type); the first passing entry wins. -/
def semCategories : List ((String → List String → Bool) × ColumnSemanticType) :=
  [(fun hl _ => invoiceHeaderMatch hl, .INVOICE_NUMBER),
   (fun hl _ => customerHeaderMatch hl, .CUSTOMER_NAME),
   (fun hl vs => dateHeaderMatch hl || vs.any isDateString, .DATE),
   (fun hl _ => amountHeaderMatch hl, .AMOUNT),
   (fun hl _ => taxHeaderMatch hl && (substrB "rate" hl || substrB "%" hl), .TAX_RATE),
   (fun hl _ => taxHeaderMatch hl, .TAX),
   (fun hl _ => quantityHeaderMatch hl, .QUANTITY),
   (fun hl _ => productHeaderMatch hl, .PRODUCT),
   (fun hl _ => cityHeaderMatch hl, .CITY),
   (fun hl _ => stateHeaderMatch hl, .STATE),
   (fun hl _ => gstinHeaderMatch hl, .GSTIN),
   (fun hl _ => panHeaderMatch hl, .PAN)]

/-- First matching category of the ordered table, UNKNOWN when none. -/
def firstMatchSem (header : String) (vs : List String) : ColumnSemanticType :=
  match semCategories.find? (fun c => c.1 (jsToLower header) vs) with
  | some c => c.2
  | none => .UNKNOWN

/-- C5 (amended).  Semantic-type inference is the first match over the
fixed ordered category table (keyword tests on the lowercased header,
except that the date category also accepts a date-looking sample value);
in particular GST Rate % is tax_rate and Vou No. is invoice_number. -/
theorem semantic_type_first_match :
    (∀ (h : String) (vs : List String), inferSemanticType h vs = firstMatchSem h vs) ∧
    inferSemanticType "GST Rate %" ["18%"] = ColumnSemanticType.TAX_RATE ∧
    inferSemanticType "Vou No." ["V001"] = ColumnSemanticType.INVOICE_NUMBER := by
  refine ⟨?_, by decide, by decide⟩
  intro h vs
  unfold inferSemanticType firstMatchSem semCategories
  by_cases c1 : invoiceHeaderMatch (jsToLower h)
  · simp [c1]
  · by_cases c2 : customerHeaderMatch (jsToLower h)
    · simp [c1, c2]
    · by_cases c3 : (dateHeaderMatch (jsToLower h) || vs.any isDateString)
      · simp [c1, c2, c3]
      · by_cases c4 : amountHeaderMatch (jsToLower h)
        · simp [c1, c2, c3, c4]
        · by_cases c5 : taxHeaderMatch (jsToLower h)
          · by_cases c6 : (substrB "rate" (jsToLower h) || substrB "%" (jsToLower h))
            · simp [c1, c2, c3, c4, c5, c6]
            · simp [c1, c2, c3, c4, c5, c6]
          · by_cases c7 : quantityHeaderMatch (jsToLower h)
            · simp [c1, c2, c3, c4, c5, c7]
            · by_cases c8 : productHeaderMatch (jsToLower h)
              · simp [c1, c2, c3, c4, c5, c7, c8]
              · by_cases c9 : cityHeaderMatch (jsToLower h)
                · simp [c1, c2, c3, c4, c5, c7, c8, c9]
                · by_cases c10 : stateHeaderMatch (jsToLower h)
                  · simp [c1, c2, c3, c4, c5, c7, c8, c9, c10]
                  · by_cases c11 : gstinHeaderMatch (jsToLower h)
                    · simp [c1, c2, c3, c4, c5, c7, c8, c9, c10, c11]
                    · by_cases c12 : panHeaderMatch (jsToLower h)
                      · simp [c1, c2, c3, c4, c5, c7, c8, c9, c10, c11, c12]
                      · simp [c1, c2, c3, c4, c5, c7, c8, c9, c10, c11, c12]

/-- C5 counterexample: classification is not a function of the header
text alone — the header mystery matches no category keyword yet is
classified DATE when a sample value looks like a date, and UNKNOWN
otherwise. -/
theorem semantic_type_depends_on_samples_counterexample :
    inferSemanticType "mystery" ["01/02/2023"] = ColumnSemanticType.DATE ∧
    inferSemanticType "mystery" ["x"] = ColumnSemanticType.UNKNOWN ∧
    inferSemanticType "mystery" ["01/02/2023"] ≠ inferSemanticType "mystery" ["x"] := by
  decide

/-! ### Lemmas about JS-object row construction (for the row invariant) -/

lemma rlookup_mapReplace {β : Type} (r : List (String × β)) (k : String) (v : β) :
    rlookup k (r.map (fun p => if p.1 = k then (k, v) else p)) =
      if (rlookup k r).isSome then some v else none := by
  induction r with
  | nil => simp [rlookup]
  | cons p t ih =>
    obtain ⟨k1, v1⟩ := p
    by_cases h : k1 = k
    · subst h
      rw [List.map_cons]
      rw [show (if ((k1, v1) : String × β).1 = k1 then (k1, v) else (k1, v1)) = (k1, v) from by simp]
      simp [rlookup]
    · rw [List.map_cons]
      rw [show (if ((k1, v1) : String × β).1 = k then (k, v) else (k1, v1)) = (k1, v1) from by simp [h]]
      simp [rlookup, h, ih]

lemma rlookup_mapReplace_other {β : Type} (r : List (String × β)) (k k2 : String) (v : β)
    (hne : k2 ≠ k) :
    rlookup k2 (r.map (fun p => if p.1 = k then (k, v) else p)) = rlookup k2 r := by
  induction r with
  | nil => simp
  | cons p t ih =>
    obtain ⟨k1, v1⟩ := p
    by_cases h : k1 = k
    · subst h
      rw [List.map_cons]
      rw [show (if ((k1, v1) : String × β).1 = k1 then (k1, v) else (k1, v1)) = (k1, v) from by simp]
      simp [rlookup, Ne.symm hne, ih]
    · rw [List.map_cons]
      rw [show (if ((k1, v1) : String × β).1 = k then (k, v) else (k1, v1)) = (k1, v1) from by simp [h]]
      by_cases h2 : k1 = k2
      · subst h2
        simp [rlookup, ih]
      · simp [rlookup, h2, ih]

lemma rlookup_append_single {β : Type} (r : List (String × β)) (k : String) (v : β) :
    rlookup k (r ++ [(k, v)]) = some ((rlookup k r).getD v) := by
  induction r with
  | nil => simp [rlookup]
  | cons p t ih =>
    obtain ⟨k1, v1⟩ := p
    by_cases h : k1 = k
    · subst h
      simp [rlookup]
    · simp [rlookup, h, ih]

lemma rlookup_append_single_other {β : Type} (r : List (String × β)) (k k2 : String) (v : β)
    (hne : k2 ≠ k) : rlookup k2 (r ++ [(k, v)]) = rlookup k2 r := by
  induction r with
  | nil => simp [rlookup, Ne.symm hne]
  | cons p t ih =>
    obtain ⟨k1, v1⟩ := p
    by_cases h : k1 = k2
    · subst h
      simp [rlookup]
    · simp [rlookup, h, ih]

lemma rlookup_rowSet_self {β : Type} (r : List (String × β)) (k : String) (v : β) :
    rlookup k (rowSet r k v) = some v := by
  unfold rowSet
  by_cases hs : (rlookup k r).isSome
  · rw [if_pos hs, rlookup_mapReplace, if_pos hs]
  · rw [if_neg hs, rlookup_append_single]
    cases h : rlookup k r with
    | some w => rw [h] at hs; simp at hs
    | none => simp

lemma rlookup_rowSet_other {β : Type} (r : List (String × β)) (k k2 : String) (v : β)
    (h : k2 ≠ k) : rlookup k2 (rowSet r k v) = rlookup k2 r := by
  unfold rowSet
  by_cases hs : (rlookup k r).isSome
  · rw [if_pos hs, rlookup_mapReplace_other _ _ _ _ h]
  · rw [if_neg hs, rlookup_append_single_other _ _ _ _ h]

lemma rlookup_isSome_iff_mem {β : Type} (r : List (String × β)) (k : String) :
    (rlookup k r).isSome ↔ k ∈ r.map Prod.fst := by
  induction r with
  | nil => simp [rlookup]
  | cons p t ih =>
    obtain ⟨k1, v1⟩ := p
    by_cases h : k1 = k
    · subst h
      simp [rlookup]
    · simp [rlookup, h, ih, Ne.symm h]

lemma keys_mapReplace {β : Type} (r : List (String × β)) (k : String) (v : β) :
    (r.map (fun p => if p.1 = k then (k, v) else p)).map Prod.fst = r.map Prod.fst := by
  induction r with
  | nil => simp
  | cons p t ih =>
    obtain ⟨k1, v1⟩ := p
    by_cases h : k1 = k
    · subst h
      rw [List.map_cons]
      rw [show (if ((k1, v1) : String × β).1 = k1 then (k1, v) else (k1, v1)) = (k1, v) from by simp]
      simp [ih]
    · rw [List.map_cons]
      rw [show (if ((k1, v1) : String × β).1 = k then (k, v) else (k1, v1)) = (k1, v1) from by simp [h]]
      simp [ih]

lemma mem_keys_rowSet {β : Type} (r : List (String × β)) (k : String) (v : β) (k2 : String) :
    (k2 ∈ (rowSet r k v).map Prod.fst) ↔ (k2 ∈ r.map Prod.fst ∨ k2 = k) := by
  unfold rowSet
  by_cases hs : (rlookup k r).isSome
  · rw [if_pos hs, keys_mapReplace]
    constructor
    · exact Or.inl
    · intro hc
      cases hc with
      | inl h => exact h
      | inr h => subst h; exact (rlookup_isSome_iff_mem r k2).mp hs
  · rw [if_neg hs]
    simp

lemma nodup_keys_rowSet {β : Type} (r : List (String × β)) (k : String) (v : β)
    (h : (r.map Prod.fst).Nodup) : ((rowSet r k v).map Prod.fst).Nodup := by
  unfold rowSet
  by_cases hs : (rlookup k r).isSome
  · rw [if_pos hs, keys_mapReplace]; exact h
  · rw [if_neg hs]
    have hk : k ∉ r.map Prod.fst := fun hm => by
      rw [← rlookup_isSome_iff_mem] at hm
      exact absurd hm hs
    simp [List.nodup_append, h, hk]

lemma snd_mem_enumFrom {α : Type} (t : List α) :
    ∀ (m : Nat) (p : Nat × α), p ∈ List.enumFrom m t → p.2 ∈ t := by
  induction t with
  | nil => intro m p hp; simp [List.enumFrom] at hp
  | cons a t ih =>
    intro m p hp
    simp only [List.enumFrom, List.mem_cons] at hp
    cases hp with
    | inl h => subst h; simp
    | inr h => exact List.mem_cons_of_mem _ (ih (m + 1) p h)

lemma foldl_rowSet_preserve (vs : List String) (l : List (Nat × String)) (k : String)
    (h : ∀ p ∈ l, p.2 ≠ k) : ∀ r : Row,
    rlookup k (l.foldl (fun r p => rowSet r p.2 (vs.getD p.1 "")) r) = rlookup k r := by
  induction l with
  | nil => intro r; rfl
  | cons p t ih =>
    intro r
    simp only [List.foldl_cons]
    rw [ih (fun q hq => h q (List.mem_cons_of_mem _ hq))]
    exact rlookup_rowSet_other _ _ _ _ (Ne.symm (h p (List.mem_cons_self _ _)))

lemma foldl_rowSet_lookup (vs : List String) : ∀ (hs : List String) (n : Nat) (r : Row),
    hs.Nodup → (∀ h2 ∈ hs, rlookup h2 r = none) →
    ∀ (i : Nat) (h2 : String), hs.get? i = some h2 →
    rlookup h2 ((List.enumFrom n hs).foldl (fun r p => rowSet r p.2 (vs.getD p.1 "")) r) =
      some (vs.getD (n + i) "") := by
  intro hs
  induction hs with
  | nil => intro n r _ _ i h2 hg; simp [List.get?] at hg
  | cons h0 t ih =>
    intro n r hnd hnone i h2 hg
    simp only [List.enumFrom, List.foldl_cons]
    have hnd2 := hnd
    rw [List.nodup_cons] at hnd2
    cases i with
    | zero =>
      simp only [List.get?] at hg
      injection hg with hg
      subst hg
      rw [foldl_rowSet_preserve vs _ _
            (fun p hp hcon => hnd2.1 (by rw [← hcon]; exact snd_mem_enumFrom t (n + 1) p hp)),
          rlookup_rowSet_self]
      simp
    | succ i =>
      simp only [List.get?] at hg
      have : n + (i + 1) = (n + 1) + i := by omega
      rw [this]
      apply ih (n + 1) _ hnd2.2 _ i h2 hg
      intro h3 h3mem
      rw [rlookup_rowSet_other]
      · exact hnone h3 (List.mem_cons_of_mem _ h3mem)
      · intro hcon
        subst hcon
        exact hnd2.1 h3mem

lemma mem_keys_foldl_rowSet (vs : List String) (l : List (Nat × String)) :
    ∀ (r : Row) (k : String),
      (k ∈ ((l.foldl (fun r p => rowSet r p.2 (vs.getD p.1 "")) r).map Prod.fst)) ↔
        (k ∈ r.map Prod.fst ∨ ∃ p ∈ l, p.2 = k) := by
  induction l with
  | nil => intro r k; simp
  | cons p t ih =>
    intro r k
    simp only [List.foldl_cons]
    rw [ih]
    rw [mem_keys_rowSet]
    constructor
    · rintro (⟨h | h⟩ | h)
      · exact Or.inl h
      · exact Or.inr ⟨p, List.mem_cons_self _ _, h.symm⟩
      · obtain ⟨q, hq, hq2⟩ := h
        exact Or.inr ⟨q, List.mem_cons_of_mem _ hq, hq2⟩
    · rintro (h | ⟨q, hq, hq2⟩)
      · exact Or.inl (Or.inl h)
      · rcases List.mem_cons.mp hq with h | h
        · subst h; exact Or.inl (Or.inr hq2.symm)
        · exact Or.inr ⟨q, h, hq2⟩

lemma nodup_keys_foldl_rowSet (vs : List String) (l : List (Nat × String)) :
    ∀ r : Row, (r.map Prod.fst).Nodup →
      ((l.foldl (fun r p => rowSet r p.2 (vs.getD p.1 "")) r).map Prod.fst).Nodup := by
  induction l with
  | nil => intro r h; exact h
  | cons p t ih =>
    intro r h
    simp only [List.foldl_cons]
    exact ih _ (nodup_keys_rowSet _ _ _ h)

lemma mkRow_keys_nodup (hs vs : List String) : ((mkRow hs vs).map Prod.fst).Nodup := by
  unfold mkRow
  exact nodup_keys_foldl_rowSet vs hs.enum [] (by simp)

lemma mem_enumFrom_of_mem {α : Type} (t : List α) :
    ∀ (m : Nat) (k : α), k ∈ t → ∃ p ∈ List.enumFrom m t, p.2 = k := by
  induction t with
  | nil => simp
  | cons a t ih =>
    intro m k hk
    rcases List.mem_cons.mp hk with h | h
    · exact ⟨(m, a), List.mem_cons_self _ _, h.symm⟩
    · obtain ⟨p, hp, hp2⟩ := ih (m + 1) k h
      exact ⟨p, List.mem_cons_of_mem _ hp, hp2⟩

lemma mkRow_mem_keys (hs vs : List String) (k : String) :
    k ∈ (mkRow hs vs).map Prod.fst ↔ k ∈ hs := by
  unfold mkRow
  refine Iff.trans (mem_keys_foldl_rowSet vs hs.enum [] k) ?_
  simp only [List.map_nil, List.not_mem_nil, false_or]
  constructor
  · rintro ⟨p, hp, hp2⟩
    subst hp2
    exact snd_mem_enumFrom hs 0 p (by simpa [List.enum] using hp)
  · intro hk
    obtain ⟨p, hp, hp2⟩ := mem_enumFrom_of_mem hs 0 k hk
    exact ⟨p, by simpa [List.enum] using hp, hp2⟩

lemma mkRow_lookup (hs vs : List String) (hnd : hs.Nodup) (i : Nat) (h2 : String)
    (hg : hs.get? i = some h2) :
    rlookup h2 (mkRow hs vs) = some (vs.getD i "") := by
  unfold mkRow
  rw [List.enum]
  have := foldl_rowSet_lookup vs hs 0 [] hnd (fun _ _ => rfl) i h2 hg
  simpa using this

/-- C6.  Every row the parser produces binds exactly the headers: its key
list is duplicate-free and holds precisely the headers; and positionally,
the Nth header is bound to the Nth split value, with the empty string
when the row has fewer values than there are headers (extra values are
never bound). -/
theorem row_invariant_one_value_per_header :
    (∀ (content : String) (res : ParsedCSV), parseCSVE content = .ok res →
      ∀ row ∈ res.data,
        (row.map Prod.fst).Nodup ∧ (∀ k, k ∈ row.map Prod.fst ↔ k ∈ res.headers)) ∧
    (∀ (hs vs : List String), hs.Nodup → ∀ (i : Nat) (h2 : String), hs.get? i = some h2 →
      rlookup h2 (mkRow hs vs) = some (vs.getD i "")) := by
  constructor
  · intro content res hok row hrow
    simp only [parseCSVE] at hok
    split at hok
    · cases hok
    · injection hok with hok
      subst hok
      simp only [List.mem_map] at hrow
      obtain ⟨l, _, hrm⟩ := hrow
      subst hrm
      exact ⟨mkRow_keys_nodup _ _, fun k => mkRow_mem_keys _ _ k⟩
  · intro hs vs hnd i h2 hg
    exact mkRow_lookup hs vs hnd i h2 hg

/-- C6 witness: for headers a, b and the single split value 1, the
second header is bound to the empty string; on the parsed file the row's
keys are exactly the headers, without duplicates. -/
theorem row_invariant_witness :
    rlookup "b" (mkRow ["a", "b"] ["1"]) = some "" ∧
    ((mkRow ["a", "b"] ["1"]).map Prod.fst).Nodup ∧
    "b" ∈ (mkRow ["a", "b"] ["1"]).map Prod.fst := by
  refine ⟨(row_invariant_one_value_per_header.2 ["a", "b"] ["1"] (by decide) 1 "b" rfl).trans rfl,
    ?_, ?_⟩
  · exact (row_invariant_one_value_per_header.1 "a,b\n1"
      ((parseCSVE "a,b\n1").toOption.getD ⟨[], [], [], []⟩) rfl
      (mkRow ["a", "b"] ["1"]) (by decide)).1
  · exact ((row_invariant_one_value_per_header.1 "a,b\n1"
      ((parseCSVE "a,b\n1").toOption.getD ⟨[], [], [], []⟩) rfl
      (mkRow ["a", "b"] ["1"]) (by decide)).2 "b").mpr (by decide)

lemma rlookup_some_mem {β : Type} (l : List (String × β)) (k : String) (v : β)
    (h : rlookup k l = some v) : (k, v) ∈ l := by
  induction l with
  | nil => cases h
  | cons p t ih =>
    obtain ⟨k1, v1⟩ := p
    by_cases hk : k1 = k
    · subst hk
      simp only [rlookup, if_pos rfl] at h
      injection h with h
      subst h
      exact List.mem_cons_self _ _
    · simp only [rlookup, if_neg hk] at h
      exact List.mem_cons_of_mem _ (ih h)

lemma mem_rlookup_of_nodup {β : Type} (l : List (String × β))
    (hnd : (l.map Prod.fst).Nodup) (k : String) (v : β) (h : (k, v) ∈ l) :
    rlookup k l = some v := by
  induction l with
  | nil => cases h
  | cons p t ih =>
    obtain ⟨k1, v1⟩ := p
    simp only [List.map_cons, List.nodup_cons] at hnd
    rcases List.mem_cons.mp h with he | ht
    · injection he with he1 he2
      subst he1
      subst he2
      simp [rlookup]
    · have hk : k1 ≠ k := by
        intro hc
        subst hc
        exact hnd.1 (List.mem_map.mpr ⟨(k1, v), ht, rfl⟩)
      simp only [rlookup, if_neg hk]
      exact ih hnd.2 ht

lemma length_three_decomp {α : Type} (l : List α) (h : 3 ≤ l.length) :
    ∃ (pre : List α) (p1 p2 p3 : α),
      l = pre ++ [p1, p2, p3] ∧ l.drop (l.length - 3) = [p1, p2, p3] := by
  have htd := (List.take_append_drop (l.length - 3) l).symm
  have hdl : (l.drop (l.length - 3)).length = 3 := by
    rw [List.length_drop]
    omega
  rcases hd : l.drop (l.length - 3) with _ | ⟨p1, _ | ⟨p2, _ | ⟨p3, _ | ⟨p4, rest⟩⟩⟩⟩ <;>
    rw [hd] at hdl <;> simp at hdl
  refine ⟨l.take (l.length - 3), p1, p2, p3, ?_, rfl⟩
  conv_lhs => rw [htd]
  rw [hd]

lemma drop_of_append_three {α : Type} (pre : List α) (p1 p2 p3 : α) :
    (pre ++ [p1, p2, p3]).drop ((pre ++ [p1, p2, p3]).length - 3) = [p1, p2, p3] := by
  rw [List.length_append]
  simp only [List.length_cons, List.length_nil]
  rw [show pre.length + (0 + 1 + 1 + 1) - 3 = pre.length from by omega]
  exact List.drop_left pre [p1, p2, p3]

lemma isDecliningTS_iff (ts : List (String × ℚ)) :
    isDecliningTS ts = true ↔
      ∃ (pre : List String) (p1 p2 p3 : String),
        sortStr (ts.map Prod.fst) = pre ++ [p1, p2, p3] ∧
        (rlookup p2 ts).getD 0 < (rlookup p1 ts).getD 0 ∧
        (rlookup p3 ts).getD 0 < (rlookup p2 ts).getD 0 := by
  unfold isDecliningTS
  by_cases hlen : (sortStr (ts.map Prod.fst)).length ≥ 3
  · obtain ⟨pre, p1, p2, p3, hdecomp, hdrop⟩ := length_three_decomp _ hlen
    rw [if_pos hlen, hdrop]
    simp only [Bool.and_eq_true, decide_eq_true_eq]
    constructor
    · rintro ⟨h1, h2⟩
      exact ⟨pre, p1, p2, p3, hdecomp, h1, h2⟩
    · rintro ⟨pre2, q1, q2, q3, hd2, h1, h2⟩
      have heq : [p1, p2, p3] = [q1, q2, q3] := by
        rw [← hdrop, hd2]
        exact drop_of_append_three pre2 q1 q2 q3
      injection heq with e1 heq
      injection heq with e2 heq
      injection heq with e3 _
      subst e1
      subst e2
      subst e3
      exact ⟨h1, h2⟩
  · rw [if_neg hlen]
    simp only [Bool.false_eq_true, false_iff]
    rintro ⟨pre, p1, p2, p3, hd, _, _⟩
    apply hlen
    rw [hd]
    simp [List.length_append]

/-- C8 (amended).  A product is flagged as declining exactly when, with
its month/year period keys sorted as strings (the lexicographic order
Array.prototype.sort() uses, not chronological order), the values of the
last three sorted keys are strictly decreasing. -/
theorem declining_flag_uses_string_sorted_periods
    (ptd : List (String × List (String × ℚ)))
    (hnd : (ptd.map Prod.fst).Nodup) (product : String) (ts : List (String × ℚ))
    (hmem : rlookup product ptd = some ts) :
    product ∈ decliningProducts ptd ↔
      ∃ (pre : List String) (p1 p2 p3 : String),
        sortStr (ts.map Prod.fst) = pre ++ [p1, p2, p3] ∧
        (rlookup p2 ts).getD 0 < (rlookup p1 ts).getD 0 ∧
        (rlookup p3 ts).getD 0 < (rlookup p2 ts).getD 0 := by
  rw [← isDecliningTS_iff]
  unfold decliningProducts
  constructor
  · intro hmemd
    rw [List.mem_map] at hmemd
    obtain ⟨q, hqf, hq2⟩ := hmemd
    rw [List.mem_filter] at hqf
    have hq : q = (product, q.2) := by
      rw [← hq2]
    have : rlookup product ptd = some q.2 := by
      apply mem_rlookup_of_nodup ptd hnd
      rw [← hq2]
      exact hq ▸ hqf.1
    rw [hmem] at this
    injection this with this
    rw [this]
    exact hqf.2
  · intro hdecl
    exact List.mem_map.mpr
      ⟨(product, ts), List.mem_filter.mpr ⟨rlookup_some_mem _ _ _ hmem, hdecl⟩, rfl⟩

set_option maxRecDepth 8192 in
/-- C8 witness: a product whose three periods already sort increasingly
as strings and whose values strictly decrease is flagged. -/
theorem declining_flag_witness :
    "A" ∈ decliningProducts [("A", [("1/2025", (3 : ℚ)), ("2/2025", 2), ("3/2025", 1)])] :=
  (declining_flag_uses_string_sorted_periods
      [("A", [("1/2025", (3 : ℚ)), ("2/2025", 2), ("3/2025", 1)])] (by decide) "A"
      [("1/2025", (3 : ℚ)), ("2/2025", 2), ("3/2025", 1)] (by decide)).mpr
    ⟨[], "1/2025", "2/2025", "3/2025", by decide, by decide, by decide⟩

/-- The concrete PRODUCT_INSIGHTS table of the C8 counterexample: one
product with periods September 2024, October 2024, February 2025 and
strictly decreasing values in chronological order. -/
def cexRows : List Row :=
  [[("Product", "A"), ("Amount", "30"), ("Date", "05/09/2024")],
   [("Product", "A"), ("Amount", "20"), ("Date", "05/10/2024")],
   [("Product", "A"), ("Amount", "10"), ("Date", "05/02/2025")]]

set_option maxRecDepth 8192 in
unseal Rat.add Rat.mul Rat.inv Rat.sub Rat.ofScientific in
/-- C8 counterexample: the values of this product strictly decrease in
chronological period order, yet the code does not flag it, because the
string sort puts 10/2024 before 2/2025 before 9/2024. -/
theorem declining_chronological_counterexample :
    buildProductTimeData cexRows "Product" "Amount" (some "Date") =
      [("A", [("9/2024", (30 : ℚ)), ("10/2024", 20), ("2/2025", 10)])] ∧
    isDecliningChrono [("9/2024", (30 : ℚ)), ("10/2024", 20), ("2/2025", 10)] = true ∧
    decliningProducts (buildProductTimeData cexRows "Product" "Amount" (some "Date")) = [] := by
  decide
